import Mathlib

/-!
The `hsdp_container_host_exec` resource of terraform-provider-hsdp.

A shallow embedding of `hsdp/resource_container_host_exec.go`.

The create operation talks to a remote host through helpers that live outside the
file (`collectFilesToCreate`, `collectList`, `copyFiles`, `ensureContainerHostReady`, the
`easyssh` method `Run`, the cartel client and `rand.Int`).  They are taken as parameters:
a `World` bundles them.  Every call the operation makes to the remote side is recorded, in
order, in a trace of `Event`s, and each remote helper receives the trace of the calls made
before it, so that its answer may depend on everything that happened earlier.

Go `error` values are represented by their message text (`err.Error()`); `nil` is `none`.
-/

namespace Hsdp

/-! ## Diagnostics (terraform-plugin-sdk `diag`) -/

/-- Severity of a diagnostic, `diag.Severity`. -/
inductive Severity
  | Error
  | Warning
  deriving DecidableEq, Repr

/-- One diagnostic, `diag.Diagnostic`. -/
structure Diagnostic where
  severity : Severity
  summary : String
  detail : String := ""
  deriving DecidableEq, Repr

/-- The list type `diag.Diagnostics`. -/
abbrev Diagnostics := List Diagnostic

/-- The SDK function `diag.FromErr` on a non-nil error: one diagnostic of error severity
whose summary is the error text. -/
def FromErr (err : String) : Diagnostics :=
  [{ severity := Severity.Error, summary := err }]

/-! ## Resource data -/

/-- One element of the `file` set of the schema (lines 70-105). -/
structure FileBlock where
  source : String := ""
  content : String := ""
  destination : String := ""
  permissions : String := ""
  owner : String := ""
  group : String := ""
  deriving DecidableEq, Repr

/-- The attributes of the resource (the schema of lines 25-106) and its identifier. -/
structure ResourceData where
  id : String := ""
  triggers : List (String × String) := []
  host : String := ""
  bastion_host : String := ""
  user : String := ""
  private_key : String := ""
  agent : Bool := false
  result : String := ""
  commands : List String := []
  file : List FileBlock := []
  deriving DecidableEq, Repr

/-- The call `d.Set("result", v)`. -/
def ResourceData.SetResult (d : ResourceData) (v : String) : ResourceData :=
  { d with result := v }

/-- The call `d.SetId(v)`. -/
def ResourceData.SetId (d : ResourceData) (v : String) : ResourceData :=
  { d with id := v }

/-- Modelled from the spec: the constant `commandsField` is declared outside the given
sources; the spec names the command-list input `commands`. -/
def commandsField : String := "commands"

/-- Modelled from the spec: the type `provisionFile` is declared outside the given sources;
the spec's FileSpec has a content origin (inline content or a source reference), a
destination, and optional permissions, owner and group. -/
structure provisionFile where
  Source : String := ""
  Content : String := ""
  Destination : String := ""
  Permissions : String := ""
  Owner : String := ""
  Group : String := ""
  deriving DecidableEq, Repr

/-! ## Transport descriptor (`easyssh`) -/

/-- The value of the `Proxy` field of the descriptor. -/
inductive ProxyFunc
  | unset
  | ProxyFromEnvironment
  deriving DecidableEq, Repr

/-- The relay hop, `easyssh.DefaultConfig`: the fields the operation sets. -/
structure DefaultConfig where
  User : String := ""
  Server : String := ""
  Key : String := ""
  Port : String := ""
  deriving DecidableEq, Repr

/-- The descriptor `easyssh.MakeConfig`: the fields the operation sets. -/
structure MakeConfig where
  User : String := ""
  Server : String := ""
  Key : String := ""
  Port : String := ""
  Proxy : ProxyFunc := ProxyFunc.unset
  Bastion : DefaultConfig := {}
  deriving DecidableEq, Repr

/-- What `ssh.Run` returns: standard output, standard error, the completion flag and the
error (`none` for `nil`). -/
structure RunResult where
  stdout : String := ""
  stderr : String := ""
  done : Bool := true
  err : Option String := none
  deriving DecidableEq, Repr

/-- The Go constant `time.Minute`, in nanoseconds. -/
def Minute : Nat := 60 * 1000000000

/-! ## Calls to the remote side -/

/-- A call made by the operation to a helper that reaches the remote host. -/
inductive Event
  | copyFiles (ssh : MakeConfig) (createFiles : List provisionFile)
  | ensureContainerHostReady (ssh : MakeConfig)
  | Run (ssh : MakeConfig) (command : String) (timeout : Nat)
  deriving DecidableEq, Repr

/-- The cartel client: the one query the operation uses. -/
structure CartelClient where
  BastionHost : String := ""
  deriving DecidableEq, Repr

/-- The provider configuration `Config`: the fields the operation reads. -/
structure Config where
  cartelClient : CartelClient := {}
  cartelClientErr : Option String := none
  debugFile : Bool := false
  deriving DecidableEq, Repr

/-- The method `Config.CartelClient` of `config.go`. -/
def Config.CartelClient (c : Config) : CartelClient × Option String :=
  (c.cartelClient, c.cartelClientErr)

/-- The method `Config.Debug` of `config.go`, on the already formatted text: the text is
written when a debug file is set. The result is the list of texts written. -/
def Config.Debug (c : Config) (output : String) : List String :=
  if c.debugFile then [output] else []

/-- The helpers of the operation that are declared outside the given sources, and the
random source. Each remote helper is given the trace of the calls made before it. -/
structure World where
  collectFilesToCreate : ResourceData → List provisionFile × Diagnostics
  collectList : String → ResourceData → List String × Diagnostics
  copyFiles : List Event → MakeConfig → List provisionFile → Option String
  ensureContainerHostReady : List Event → MakeConfig → Option String
  Run : List Event → MakeConfig → String → Nat → RunResult
  randInt : Nat

/-- What one invocation leaves behind: the returned diagnostics, the resource data, the
calls made to the remote side in order, and the debug texts written. -/
structure Outcome where
  diags : Diagnostics
  d : ResourceData
  trace : List Event
  log : List String
  deriving DecidableEq, Repr

/-! ## The operation -/

/-- The command loop of `resourceContainerHostExecCreate` (lines 180-187) followed by the
end of the function (lines 188-190). The arguments after the remaining commands are the
current value of `stdout`, the trace and the debug log so far. -/
def runCommands (w : World) (config : Config) (d : ResourceData) (diags : Diagnostics)
    (ssh : MakeConfig) : List String → String → List Event → List String → Outcome
  | [], stdout, trace, log =>
    { diags := diags
      d := (d.SetResult stdout).SetId (toString w.randInt)
      trace := trace
      log := log }
  | command :: rest, _, trace, log =>
    let r := w.Run trace ssh command (5 * Minute)
    let trace := trace ++ [Event.Run ssh command (5 * Minute)]
    let log := log ++ config.Debug
      ("command: " ++ command ++ "\ndone: " ++ toString r.done ++ "\nstdout:\n" ++ r.stdout
        ++ "\nstderr:\n" ++ r.stderr ++ "\n")
    match r.err with
    | some err =>
      { diags := diags ++ FromErr ("command [" ++ command ++ "]: " ++ err)
        d := d
        trace := trace
        log := log ++ config.Debug ("error: " ++ err ++ "\n") }
    | none => runCommands w config d diags ssh rest r.stdout trace log

/-- The function `resourceContainerHostExecCreate` (lines 110-191). -/
def resourceContainerHostExecCreate (w : World) (config : Config) (d : ResourceData) :
    Outcome := Id.run do
  let (client, err) := config.CartelClient
  if let some err := err then
    return { diags := FromErr err, d := d, trace := [], log := [] }
  let mut bastionHost := d.bastion_host
  if bastionHost = "" then
    bastionHost := client.BastionHost
  let user := d.user
  let privateKey := d.private_key
  let host := d.host
  let agent := d.agent
  -- Fetch files first before starting provisioning
  let (createFiles, diags) := w.collectFilesToCreate d
  if diags.length > 0 then
    return { diags := diags, d := d, trace := [], log := [] }
  -- And commands
  let (commands, diags) := w.collectList commandsField d
  if diags.length > 0 then
    return { diags := diags, d := d, trace := [], log := [] }
  if commands.length > 0 ∨ createFiles.length > 0 then
    if user = "" then
      return { diags := FromErr ("user must be set when '" ++ commandsField ++ "' is specified")
               d := d, trace := [], log := [] }
    if privateKey = "" ∧ ¬ agent then
      return { diags := FromErr "no SSH 'private_key' was set and 'agent' is 'false', authentication will fail after provisioning step"
               d := d, trace := [], log := [] }
  -- Collect SSH details
  let privateIP := host
  let mut ssh : MakeConfig :=
    { User := user
      Server := privateIP
      Port := "22"
      Proxy := ProxyFunc.ProxyFromEnvironment
      Bastion := { User := user, Server := bastionHost, Port := "22" } }
  if privateKey ≠ "" then
    if agent then
      return { diags := FromErr "'agent' is enabled so not expecting a private key to be set"
               d := d, trace := [], log := [] }
    ssh := { ssh with Key := privateKey, Bastion := { ssh.Bastion with Key := privateKey } }
  -- Provision files
  if let some err := w.copyFiles [] ssh createFiles then
    return { diags := FromErr ("copying files to remote: " ++ err)
             d := d, trace := [Event.copyFiles ssh createFiles], log := [] }
  -- Ensure ready-ness
  if let some err := w.ensureContainerHostReady [Event.copyFiles ssh createFiles] ssh then
    return { diags := FromErr ("container host ready-ness check failed: " ++ err)
             d := d
             trace := [Event.copyFiles ssh createFiles, Event.ensureContainerHostReady ssh]
             log := [] }
  -- Run commands
  return runCommands w config d diags ssh commands ""
    [Event.copyFiles ssh createFiles, Event.ensureContainerHostReady ssh] []

/-! ## Test worlds -/

/-- A world in which collection reads the declared lists, every remote call succeeds and
each command prints its own text. -/
def echoWorld : World where
  collectFilesToCreate := fun d =>
    (d.file.map fun f =>
      { Source := f.source, Content := f.content, Destination := f.destination,
        Permissions := f.permissions, Owner := f.owner, Group := f.group }, [])
  collectList := fun _ d => (d.commands, [])
  copyFiles := fun _ _ _ => none
  ensureContainerHostReady := fun _ _ => none
  Run := fun _ _ command _ =>
    if command = "false" then { err := some "Process exited with status 1" }
    else { stdout := "out of " ++ command }
  randInt := 4037200794235010051

/-! ## Reading a run -/

/-- The descriptor the operation hands to the remote helpers when validation passes: lines
119-122 and 147-165 with the key set from `private_key` (empty when none is declared). -/
def sshOf (config : Config) (d : ResourceData) : MakeConfig :=
  { User := d.user
    Server := d.host
    Key := d.private_key
    Port := "22"
    Proxy := ProxyFunc.ProxyFromEnvironment
    Bastion :=
      { User := d.user
        Server := if d.bastion_host = "" then config.cartelClient.BastionHost else d.bastion_host
        Key := d.private_key
        Port := "22" } }

/-- The collected file list, `createFiles`. -/
def filesOf (w : World) (d : ResourceData) : List provisionFile := (w.collectFilesToCreate d).1

/-- The collected command list, `commands`. -/
def commandsOf (w : World) (d : ResourceData) : List String := (w.collectList commandsField d).1

/-- The descriptor an event carries. -/
def Event.ssh : Event → MakeConfig
  | Event.copyFiles ssh _ => ssh
  | Event.ensureContainerHostReady ssh => ssh
  | Event.Run ssh _ _ => ssh

/-- Whether an event is a command run. -/
def Event.isRun : Event → Bool
  | Event.Run _ _ _ => true
  | _ => false

/-- The run events of a list of commands, each with the timeout of line 181. -/
def runEvents (ssh : MakeConfig) (commands : List String) : List Event :=
  commands.map fun command => Event.Run ssh command (5 * Minute)

/-- The two calls made before the command loop: the copy of the collected files and the
readiness probe. -/
def stageEvents (w : World) (config : Config) (d : ResourceData) : List Event :=
  [Event.copyFiles (sshOf config d) (filesOf w d), Event.ensureContainerHostReady (sshOf config d)]

/-- What the remote side answers to the run of command number `k` of `commands` when the
calls of `trace` and the runs of commands `0..k-1` were made before it. -/
def runAt (w : World) (ssh : MakeConfig) (trace : List Event) (commands : List String)
    (k : Nat) : RunResult :=
  w.Run (trace ++ runEvents ssh (commands.take k)) ssh (commands.getD k "") (5 * Minute)

/-- What the remote side answers to the run of command number `k` of the operation, after
the copy, the probe and the runs of commands `0..k-1`. -/
def answer (w : World) (config : Config) (d : ResourceData) (k : Nat) : RunResult :=
  runAt w (sshOf config d) (stageEvents w config d) (commandsOf w d) k

/-- The input reaches validation: the cartel client is available and neither collection
reports a diagnostic. -/
def Collected (w : World) (config : Config) (d : ResourceData) : Prop :=
  config.cartelClientErr = none ∧ (w.collectFilesToCreate d).2 = [] ∧
    (w.collectList commandsField d).2 = []

/-- The numbered validation rules of the spec (section 4.1, rules 1 to 3). -/
inductive Rule
  | userRequired
  | authAvailable
  | keyAndAgent
  deriving DecidableEq, Repr

/-- The number the spec gives a rule. -/
def Rule.number : Rule → Nat
  | Rule.userRequired => 1
  | Rule.authAvailable => 2
  | Rule.keyAndAgent => 3

/-- When an input violates a rule, in the words of the spec: (1) the command list or file
list is non-empty and the user is empty; (2) the command list or file list is non-empty and
neither a key is present nor the agent enabled; (3) a key is present and the agent is
enabled. -/
def Rule.violated (w : World) (d : ResourceData) : Rule → Prop
  | Rule.userRequired => (commandsOf w d ≠ [] ∨ filesOf w d ≠ []) ∧ d.user = ""
  | Rule.authAvailable =>
    (commandsOf w d ≠ [] ∨ filesOf w d ≠ []) ∧ ¬ (d.private_key ≠ "" ∨ d.agent = true)
  | Rule.keyAndAgent => d.private_key ≠ "" ∧ d.agent = true

/-- The error text of the source for each rule (lines 140, 143 and 161). -/
def Rule.message : Rule → String
  | Rule.userRequired => "user must be set when '" ++ commandsField ++ "' is specified"
  | Rule.authAvailable =>
    "no SSH 'private_key' was set and 'agent' is 'false', authentication will fail after provisioning step"
  | Rule.keyAndAgent => "'agent' is enabled so not expecting a private key to be set"

/-- The input passes validation: it reaches validation and violates none of the rules. -/
def Valid (w : World) (config : Config) (d : ResourceData) : Prop :=
  Collected w config d ∧ ¬ Rule.userRequired.violated w d ∧
    ¬ Rule.authAvailable.violated w d ∧ ¬ Rule.keyAndAgent.violated w d

/-- The input reaches the command loop: it passes validation, the copy of the files
reports no error and the readiness probe that follows reports no error. -/
def Ready (w : World) (config : Config) (d : ResourceData) : Prop :=
  Valid w config d ∧
    w.copyFiles [] (sshOf config d) (filesOf w d) = none ∧
    w.ensureContainerHostReady [Event.copyFiles (sshOf config d) (filesOf w d)]
      (sshOf config d) = none

/-- Whether a list of diagnostics holds one of error severity. -/
def HasError (diags : Diagnostics) : Prop :=
  ∃ x, x ∈ diags ∧ x.severity = Severity.Error

instance (w : World) (config : Config) (d : ResourceData) : Decidable (Collected w config d) := by
  unfold Collected; infer_instance

instance (w : World) (d : ResourceData) (r : Rule) : Decidable (r.violated w d) := by
  cases r <;> unfold Rule.violated <;> infer_instance

instance (w : World) (config : Config) (d : ResourceData) : Decidable (Valid w config d) := by
  unfold Valid; infer_instance

instance (w : World) (config : Config) (d : ResourceData) : Decidable (Ready w config d) := by
  unfold Ready; infer_instance

/-! ## Sample inputs -/

/-- The scenario of the spec with a failing second command. -/
def failingRun : ResourceData :=
  { host := "10.0.0.5", user := "ubuntu", private_key := "KEY"
    commands := ["echo A", "false", "echo B"] }

/-- The scenario of the spec in which both commands succeed. -/
def passingRun : ResourceData :=
  { host := "10.0.0.5", user := "ubuntu", private_key := "KEY", commands := ["echo A", "echo B"] }

/-- A command is declared, the user is empty, a key is set and the agent is enabled. -/
def noUserRun : ResourceData :=
  { host := "10.0.0.5", user := "", private_key := "KEY", agent := true, commands := ["echo A"] }

/-- Nothing is declared but a key together with the agent. -/
def keyAndAgentRun : ResourceData :=
  { host := "10.0.0.5", user := "ubuntu", private_key := "KEY", agent := true }

/-- A command is declared with a user but with neither key nor agent. -/
def noAuthRun : ResourceData :=
  { host := "10.0.0.5", user := "ubuntu", commands := ["echo A"] }

/-- A command is declared with neither user nor key nor agent. -/
def noUserNoAuthRun : ResourceData :=
  { host := "10.0.0.5", commands := ["echo A"] }

/-- Nothing is declared: no file, no command, no key, no agent. -/
def emptyRun : ResourceData :=
  { host := "10.0.0.5", user := "ubuntu" }

/-- A file and a command are declared, with a relay host. -/
def relayRun : ResourceData :=
  { host := "10.0.0.5", bastion_host := "gw.example.com", user := "ubuntu", private_key := "KEY"
    commands := ["echo A"]
    file := [{ content := "hello", destination := "/tmp/x" }] }

/-- A configuration whose cartel client names a default relay host. -/
def relayConfig : Config :=
  { cartelClient := { BastionHost := "gw.default.example.com" } }

/-- The world of `echoWorld` in which the copy of the files fails. -/
def copyFailWorld : World :=
  { echoWorld with copyFiles := fun _ _ _ => some "dial tcp: connection refused" }

/-- The world of `echoWorld` in which the host never becomes ready. -/
def notReadyWorld : World :=
  { echoWorld with ensureContainerHostReady := fun _ _ => some "timed out" }

/-! ## Further readings of a run -/

/-- Whether an event is a readiness probe. -/
def Event.isProbe : Event → Bool
  | Event.ensureContainerHostReady _ => true
  | _ => false

/-- The commands of the run events of a trace, in order. -/
def commandsRun : List Event → List String
  | [] => []
  | Event.Run _ command _ :: rest => command :: commandsRun rest
  | _ :: rest => commandsRun rest

/-- A text starts with another. -/
def StartsWith (text start : String) : Prop :=
  ∃ rest, text = start ++ rest

/-- A text contains another. -/
def Contains (text part : String) : Prop :=
  ∃ before after, text = before ++ part ++ after

/-! ## Read and delete -/

/-- What a read or a delete leaves behind: the returned error, the resource data and the
calls made to the remote side. -/
structure LifecycleOutcome where
  err : Option String
  d : ResourceData
  trace : List Event
  deriving DecidableEq, Repr

/-- The function `resourceContainerHostExecRead` (lines 193-195). -/
def resourceContainerHostExecRead (d : ResourceData) (_m : Config) : LifecycleOutcome :=
  { err := none, d := d, trace := [] }

/-- The function `resourceContainerHostExecDelete` (lines 197-200). -/
def resourceContainerHostExecDelete (d : ResourceData) (_m : Config) : LifecycleOutcome :=
  { err := none, d := d.SetId "", trace := [] }

/-- A delete of a resource that a create has set up. -/
def createdRun : ResourceData :=
  { passingRun with result := "out of echo B", id := "4037200794235010051" }

/-- A command is declared with a user and the agent, and no key. -/
def agentRun : ResourceData :=
  { host := "10.0.0.5", user := "ubuntu", agent := true, commands := ["echo A"] }

/-- A file is declared and no command. -/
def filesOnlyRun : ResourceData :=
  { host := "10.0.0.5", user := "ubuntu", private_key := "KEY"
    file := [{ content := "hello", destination := "/tmp/x" }] }

/-! ## Decimal texts -/

/-- The value of a decimal digit character. -/
def digitValue (c : Char) : Nat := c.toNat - 48

/-- The number a list of decimal digits stands for, most significant digit first. -/
def readBack (cs : List Char) : Nat :=
  cs.foldl (fun acc c => 10 * acc + digitValue c) 0

/-- The world of `echoWorld` with another number drawn from the random source. -/
def otherDrawWorld : World :=
  { echoWorld with randInt := 7 }

/-! ## The notification producers data source (`data_source_notification_producers.go`) -/

/-- A producer of the notification service: the field the read uses. -/
structure Producer where
  ID : String := ""
  deriving DecidableEq, Repr

/-- The response that comes with a listing: the field the read uses. -/
structure Response where
  StatusCode : Nat := 200
  deriving DecidableEq, Repr

/-- The Go constant `http.StatusForbidden`. -/
def StatusForbidden : Nat := 403

/-- The options of a listing, `notification.GetOptions`: the field the read sets. -/
structure GetOptions where
  ManagedOrganizationID : Option String := none
  deriving DecidableEq, Repr

/-- The notification client: the listing `client.Producer.GetProducers`, which returns the
producers, the response (`none` for `nil`) and the error (`none` for `nil`). -/
structure NotificationClient where
  GetProducers : GetOptions → List Producer × Option Response × Option String

/-- The provider configuration `Config`: the fields the producers read uses. -/
structure NotificationConfig where
  notificationClient : NotificationClient
  notificationClientErr : Option String := none

/-- The method `Config.NotificationClient` of `config.go`. -/
def NotificationConfig.NotificationClient (c : NotificationConfig) :
    NotificationClient × Option String :=
  (c.notificationClient, c.notificationClientErr)

/-- The attributes of the data source (the schema of lines 15-26) and its identifier;
`producer_ids` holds the value handed to `d.Set`. -/
structure ProducersData where
  id : String := ""
  managing_organization_id : String := ""
  producer_ids : List String := []
  deriving DecidableEq, Repr

/-- What one read leaves behind: the returned diagnostics, the data, and whether the
deferred `client.Close()` ran. -/
structure ProducersOutcome where
  diags : Diagnostics
  d : ProducersData
  closed : Bool
  deriving DecidableEq, Repr

/-- The function `dataSourceNotificationProducersRead` (lines 31-65). -/
def dataSourceNotificationProducersRead (d : ProducersData) (meta : NotificationConfig) :
    ProducersOutcome := Id.run do
  let config := meta
  let diags : Diagnostics := []
  let (client, err) := config.NotificationClient
  if let some err := err then
    return { diags := FromErr err, d := d, closed := false }
  let managingOrgID := d.managing_organization_id
  let opts : GetOptions := { ManagedOrganizationID := some managingOrgID }
  let (list0, resp, err) := client.GetProducers opts -- Get all producers
  let mut list := list0
  if let some err := err then
    let refused : Bool :=
      match resp with
      | none => true
      | some resp => resp.StatusCode != StatusForbidden
    if refused then -- Do not error on permission issues
      return { diags := FromErr err, d := d, closed := true }
    list := [] -- empty list
  let producers := list.foldl (fun producers p => producers ++ [p.ID]) []
  return { diags := diags, d := { d with id := "producers", producer_ids := producers }
           closed := true }

/-- A configuration whose listing is answered with the given producers, response and
error. -/
def listingConfig (list : List Producer) (resp : Option Response) (err : Option String) :
    NotificationConfig :=
  { notificationClient := { GetProducers := fun _ => (list, resp, err) } }

/-- A data source read for one organization, with values of an earlier read. -/
def producersData : ProducersData :=
  { id := "old", managing_organization_id := "org-1", producer_ids := ["stale"] }

/-! ## Helpers modelled from the spec -/

/-- Modelled from the spec: the two steps the file provisioner of section 4.2 makes for one
file over the transport, the delivery of its content to the destination and the follow-up
step that applies the declared permissions, owner and group; each returns its error (`none`
for success). -/
structure FileTransport where
  WriteFile : MakeConfig → provisionFile → Option String
  applyMetadata : MakeConfig → provisionFile → Option String

/-- Modelled from the spec: the function `copyFiles` is declared outside the given sources.
Section 4.2: each declared file, in declaration order, is delivered and then gets its
metadata applied; a transfer failure aborts at once, no further file is attempted, and the
error is wrapped with the destination path of the failing file; a failure to apply the
metadata fails the whole operation. The result is the error and the files whose transfer
was attempted, in order. -/
def copyFilesModel (t : FileTransport) (ssh : MakeConfig) :
    List provisionFile → Option String × List provisionFile
  | [] => (none, [])
  | f :: rest =>
    match t.WriteFile ssh f with
    | some err => (some (f.Destination ++ ": " ++ err), [f])
    | none =>
      match t.applyMetadata ssh f with
      | some err => (some err, [f])
      | none => ((copyFilesModel t ssh rest).1, f :: (copyFilesModel t ssh rest).2)

/-- A world whose copy of the files is the model of the spec over a file transport. -/
def withCopyFilesModel (t : FileTransport) (w : World) : World :=
  { w with copyFiles := fun _ ssh createFiles => (copyFilesModel t ssh createFiles).1 }

/-- Modelled from the spec: a file descriptor is malformed when neither or both of the
inline content and the source reference are set (section 4.2, content resolution). -/
def FileBlock.malformed (b : FileBlock) : Bool :=
  (b.content = "" && b.source = "") || (b.content != "" && b.source != "")

/-- Modelled from the spec: the configuration error raised for a malformed descriptor. -/
def FileBlock.conflict (b : FileBlock) : Diagnostic :=
  { severity := Severity.Error
    summary := "conflict in file block"
    detail := "file " ++ b.destination ++ ": set exactly one of 'content' and 'source'" }

/-- Modelled from the spec: the function `collectFilesToCreate` is declared outside the
given sources. Section 4.2: exactly one of inline content and source reference must be set
per file, and a descriptor with neither or both is a configuration error; the whole list is
validated, one diagnostic for each malformed descriptor, and the well-formed descriptors
are collected in order. -/
def collectFilesModel : List FileBlock → List provisionFile × Diagnostics
  | [] => ([], [])
  | b :: rest =>
    if b.malformed then ((collectFilesModel rest).1, b.conflict :: (collectFilesModel rest).2)
    else
      ({ Source := b.source, Content := b.content, Destination := b.destination,
         Permissions := b.permissions, Owner := b.owner, Group := b.group } ::
        (collectFilesModel rest).1, (collectFilesModel rest).2)

/-- A world whose collection of the files is the model of the spec. -/
def withCollectFilesModel (w : World) : World :=
  { w with collectFilesToCreate := fun d => collectFilesModel d.file }

/-- A transport on which the delivery to `/tmp/y` is refused. -/
def refusingTransport : FileTransport :=
  { WriteFile := fun _ f => if f.Destination = "/tmp/y" then some "permission denied" else none
    applyMetadata := fun _ _ => none }

/-- Three files and a command are declared. -/
def threeFilesRun : ResourceData :=
  { host := "10.0.0.5", user := "ubuntu", private_key := "KEY", commands := ["echo A"]
    file := [{ content := "a", destination := "/tmp/x" },
      { content := "b", destination := "/tmp/y" },
      { content := "c", destination := "/tmp/z" }] }

/-- Three files are declared: the second sets neither content nor source, the third both. -/
def malformedFilesRun : ResourceData :=
  { host := "10.0.0.5", user := "ubuntu", private_key := "KEY", commands := ["echo A"]
    file := [{ content := "a", destination := "/tmp/x" },
      { destination := "/tmp/y" },
      { content := "c", source := "c.txt", destination := "/tmp/z" }] }

/-- Nothing is declared but the agent. -/
def agentOnlyRun : ResourceData :=
  { emptyRun with agent := true }

/-- A files-only input whose `result` holds the output of an earlier run. -/
def rerunFilesOnly : ResourceData :=
  { filesOnlyRun with result := "old output" }

theorem create_eq (w : World) (config : Config) (d : ResourceData) :
    resourceContainerHostExecCreate w config d =
      match config.cartelClientErr with
      | some err => { diags := FromErr err, d := d, trace := [], log := [] }
      | none =>
        if (w.collectFilesToCreate d).2 ≠ [] then
          { diags := (w.collectFilesToCreate d).2, d := d, trace := [], log := [] }
        else if (w.collectList commandsField d).2 ≠ [] then
          { diags := (w.collectList commandsField d).2, d := d, trace := [], log := [] }
        else if (commandsOf w d ≠ [] ∨ filesOf w d ≠ []) ∧ d.user = "" then
          { diags := FromErr "user must be set when 'commands' is specified"
            d := d, trace := [], log := [] }
        else if (commandsOf w d ≠ [] ∨ filesOf w d ≠ []) ∧ d.private_key = "" ∧ d.agent = false then
          { diags := FromErr "no SSH 'private_key' was set and 'agent' is 'false', authentication will fail after provisioning step"
            d := d, trace := [], log := [] }
        else if d.private_key ≠ "" ∧ d.agent = true then
          { diags := FromErr "'agent' is enabled so not expecting a private key to be set"
            d := d, trace := [], log := [] }
        else
          match w.copyFiles [] (sshOf config d) (filesOf w d) with
          | some err =>
            { diags := FromErr ("copying files to remote: " ++ err)
              d := d, trace := [Event.copyFiles (sshOf config d) (filesOf w d)], log := [] }
          | none =>
            match w.ensureContainerHostReady [Event.copyFiles (sshOf config d) (filesOf w d)]
                (sshOf config d) with
            | some err =>
              { diags := FromErr ("container host ready-ness check failed: " ++ err)
                d := d
                trace := [Event.copyFiles (sshOf config d) (filesOf w d),
                  Event.ensureContainerHostReady (sshOf config d)]
                log := [] }
            | none =>
              runCommands w config d [] (sshOf config d) (commandsOf w d) ""
                [Event.copyFiles (sshOf config d) (filesOf w d),
                  Event.ensureContainerHostReady (sshOf config d)] [] := by
  unfold resourceContainerHostExecCreate
  cases hc : config.cartelClientErr with
  | some e => simp [Id.run, Config.CartelClient, hc]
  | none =>
    rcases hf : w.collectFilesToCreate d with ⟨files, fd⟩
    rcases hl : w.collectList commandsField d with ⟨cmds, cd⟩
    simp only [Id.run, Config.CartelClient, hc, filesOf, commandsOf, hf, hl]
    have hcopy : ∀ (ssh : MakeConfig) (k : Id Outcome),
        (match w.copyFiles [] ssh files with
          | some err => (pure (Outcome.mk (FromErr ("copying files to remote: " ++ err)) d
              [Event.copyFiles ssh files] []) : Id Outcome)
          | _ => k) =
        (match w.copyFiles [] ssh files with
          | some err => Outcome.mk (FromErr ("copying files to remote: " ++ err)) d
              [Event.copyFiles ssh files] []
          | none => k) := by
      intro ssh k; cases w.copyFiles [] ssh files <;> rfl
    have hready : ∀ (ssh : MakeConfig) (k : Id Outcome),
        (match w.ensureContainerHostReady [Event.copyFiles ssh files] ssh with
          | some err => (pure (Outcome.mk
              (FromErr ("container host ready-ness check failed: " ++ err)) d
              [Event.copyFiles ssh files, Event.ensureContainerHostReady ssh] []) : Id Outcome)
          | _ => k) =
        (match w.ensureContainerHostReady [Event.copyFiles ssh files] ssh with
          | some err => Outcome.mk
              (FromErr ("container host ready-ness check failed: " ++ err)) d
              [Event.copyFiles ssh files, Event.ensureContainerHostReady ssh] []
          | none => k) := by
      intro ssh k; cases w.ensureContainerHostReady [Event.copyFiles ssh files] ssh <;> rfl
    by_cases hb : d.bastion_host = "" <;> by_cases hfd : fd = [] <;> by_cases hcd : cd = []
      <;> by_cases hne : (cmds ≠ [] ∨ files ≠ []) <;> by_cases hu : d.user = ""
      <;> by_cases hk : d.private_key = "" <;> cases ha : d.agent
      <;> simp [hb, hfd, hcd, hne, hu, hk, ha, sshOf, commandsField, List.length_pos, pure, bind, hcopy, hready]
    all_goals
      generalize w.copyFiles [] _ files = r1
      generalize w.ensureContainerHostReady _ _ = r2
      cases r1 <;> cases r2 <;> rfl

/-! ## The command loop -/

theorem runEvents_take_succ (ssh : MakeConfig) (c : String) (rest : List String) (k : Nat) :
    runEvents ssh ((c :: rest).take (k + 1)) =
      Event.Run ssh c (5 * Minute) :: runEvents ssh (rest.take k) := by
  simp [runEvents]

theorem runAt_cons_succ (w : World) (ssh : MakeConfig) (trace : List Event) (c : String)
    (rest : List String) (k : Nat) :
    runAt w ssh trace (c :: rest) (k + 1) =
      runAt w ssh (trace ++ [Event.Run ssh c (5 * Minute)]) rest k := by
  simp [runAt, runEvents]

theorem runAt_cons_zero (w : World) (ssh : MakeConfig) (trace : List Event) (c : String)
    (rest : List String) :
    runAt w ssh trace (c :: rest) 0 = w.Run trace ssh c (5 * Minute) := by
  simp [runAt, runEvents]

/-- The loop stops at the first command whose run reports an error. -/
theorem runCommands_fail (w : World) (config : Config) (d : ResourceData) (diags : Diagnostics)
    (ssh : MakeConfig) (e : String) :
    ∀ (commands : List String) (i : Nat) (stdout : String) (trace : List Event)
      (log : List String),
      i < commands.length →
      (∀ k, k < i → (runAt w ssh trace commands k).err = none) →
      (runAt w ssh trace commands i).err = some e →
      (runCommands w config d diags ssh commands stdout trace log).diags =
          diags ++ FromErr ("command [" ++ commands.getD i "" ++ "]: " ++ e) ∧
        (runCommands w config d diags ssh commands stdout trace log).d = d ∧
        (runCommands w config d diags ssh commands stdout trace log).trace =
          trace ++ runEvents ssh (commands.take (i + 1)) := by
  intro commands
  induction commands with
  | nil => intro i _ _ _ hi; simp at hi
  | cons c rest ih =>
    intro i stdout trace log hi hprev hfail
    cases i with
    | zero =>
      rw [runAt_cons_zero] at hfail
      simp [runCommands, hfail, runEvents]
    | succ j =>
      have h0 : (w.Run trace ssh c (5 * Minute)).err = none := by
        have := hprev 0 (Nat.succ_pos j)
        rwa [runAt_cons_zero] at this
      have hrec := ih j (w.Run trace ssh c (5 * Minute)).stdout
        (trace ++ [Event.Run ssh c (5 * Minute)])
        (log ++ config.Debug
          ("command: " ++ c ++ "\ndone: " ++ toString (w.Run trace ssh c (5 * Minute)).done
            ++ "\nstdout:\n" ++ (w.Run trace ssh c (5 * Minute)).stdout
            ++ "\nstderr:\n" ++ (w.Run trace ssh c (5 * Minute)).stderr ++ "\n"))
        (by simpa using hi)
        (by
          intro k hk
          have := hprev (k + 1) (Nat.succ_lt_succ hk)
          rwa [runAt_cons_succ] at this)
        (by rwa [runAt_cons_succ] at hfail)
      simp only [runCommands, h0]
      rw [runEvents_take_succ]
      simpa using hrec

/-- When no run reports an error the loop runs every command and the operation ends on
lines 188-190 with the output of the last run. -/
theorem runCommands_ok (w : World) (config : Config) (d : ResourceData) (diags : Diagnostics)
    (ssh : MakeConfig) :
    ∀ (commands : List String) (stdout : String) (trace : List Event) (log : List String),
      (∀ k, k < commands.length → (runAt w ssh trace commands k).err = none) →
      (runCommands w config d diags ssh commands stdout trace log).diags = diags ∧
        (runCommands w config d diags ssh commands stdout trace log).d =
          (d.SetResult (if commands = [] then stdout
            else (runAt w ssh trace commands (commands.length - 1)).stdout)).SetId
            (toString w.randInt) ∧
        (runCommands w config d diags ssh commands stdout trace log).trace =
          trace ++ runEvents ssh commands := by
  intro commands
  induction commands with
  | nil => intro stdout trace log _; simp [runCommands, runEvents]
  | cons c rest ih =>
    intro stdout trace log hall
    have h0 : (w.Run trace ssh c (5 * Minute)).err = none := by
      have := hall 0 (by simp)
      rwa [runAt_cons_zero] at this
    have hrec := ih (w.Run trace ssh c (5 * Minute)).stdout
      (trace ++ [Event.Run ssh c (5 * Minute)])
      (log ++ config.Debug
        ("command: " ++ c ++ "\ndone: " ++ toString (w.Run trace ssh c (5 * Minute)).done
          ++ "\nstdout:\n" ++ (w.Run trace ssh c (5 * Minute)).stdout
          ++ "\nstderr:\n" ++ (w.Run trace ssh c (5 * Minute)).stderr ++ "\n"))
      (by
        intro k hk
        have := hall (k + 1) (by simpa using hk)
        rwa [runAt_cons_succ] at this)
    simp only [runCommands, h0]
    refine ⟨hrec.1, ?_, ?_⟩
    · rw [hrec.2.1]
      cases rest with
      | nil => simp [runAt_cons_zero]
      | cons c2 rest2 =>
        simp only [List.length_cons, Nat.add_sub_cancel, reduceCtorEq, if_false]
        rw [runAt_cons_succ]
    · rw [hrec.2.2]; simp [runEvents]

/-- Either no run reports an error, or there is a first run that does. -/
theorem ok_or_first_failure (w : World) (ssh : MakeConfig) (trace : List Event)
    (commands : List String) :
    (∀ k, k < commands.length → (runAt w ssh trace commands k).err = none) ∨
      ∃ i e, i < commands.length ∧ (∀ k, k < i → (runAt w ssh trace commands k).err = none) ∧
        (runAt w ssh trace commands i).err = some e := by
  by_cases h : ∀ k, k < commands.length → (runAt w ssh trace commands k).err = none
  · exact Or.inl h
  · right
    have hex : ∃ k, k < commands.length ∧ (runAt w ssh trace commands k).err ≠ none := by
      by_contra hno
      apply h
      intro k hk
      by_contra hne
      exact hno ⟨k, hk, hne⟩
    obtain ⟨hlt, hne⟩ := Nat.find_spec hex
    obtain ⟨e, he⟩ := Option.ne_none_iff_exists.mp hne
    refine ⟨Nat.find hex, e, hlt, ?_, he.symm⟩
    intro k hk
    by_contra hk2
    exact Nat.find_min hex hk ⟨lt_trans hk hlt, hk2⟩

/-- The trace of the loop is the trace so far followed by the runs of a leading part of
the commands, in order. -/
theorem runCommands_trace (w : World) (config : Config) (d : ResourceData) (diags : Diagnostics)
    (ssh : MakeConfig) (commands : List String) (stdout : String) (trace : List Event)
    (log : List String) :
    ∃ m, m ≤ commands.length ∧
      (runCommands w config d diags ssh commands stdout trace log).trace =
        trace ++ runEvents ssh (commands.take m) := by
  rcases ok_or_first_failure w ssh trace commands with hall | ⟨i, e, hi, hprev, hfail⟩
  · refine ⟨commands.length, le_refl _, ?_⟩
    rw [(runCommands_ok w config d diags ssh commands stdout trace log hall).2.2]
    simp
  · exact ⟨i + 1, hi, (runCommands_fail w config d diags ssh e commands i stdout trace log hi
      hprev hfail).2.2⟩

/-! ## The stages before the loop -/

theorem valid_iff (w : World) (config : Config) (d : ResourceData) :
    Valid w config d ↔
      config.cartelClientErr = none ∧ (w.collectFilesToCreate d).2 = [] ∧
        (w.collectList commandsField d).2 = [] ∧
        ¬ ((commandsOf w d ≠ [] ∨ filesOf w d ≠ []) ∧ d.user = "") ∧
        ¬ ((commandsOf w d ≠ [] ∨ filesOf w d ≠ []) ∧ d.private_key = "" ∧ d.agent = false) ∧
        ¬ (d.private_key ≠ "" ∧ d.agent = true) := by
  unfold Valid Collected
  constructor
  · rintro ⟨⟨h1, h2, h3⟩, r1, r2, r3⟩
    simp only [Rule.violated] at r1 r2 r3
    refine ⟨h1, h2, h3, r1, ?_, r3⟩
    rintro ⟨hne, hk, ha⟩
    apply r2
    refine ⟨hne, ?_⟩
    simp [hk, ha]
  · rintro ⟨h1, h2, h3, r1, r2, r3⟩
    refine ⟨⟨h1, h2, h3⟩, r1, ?_, r3⟩
    simp only [Rule.violated]
    rintro ⟨hne, hno⟩
    apply r2
    refine ⟨hne, ?_⟩
    cases ha : d.agent <;> simp_all

/-- An input that passes validation goes on to the copy of the files. -/
theorem create_of_valid (w : World) (config : Config) (d : ResourceData)
    (hv : Valid w config d) :
    resourceContainerHostExecCreate w config d =
      match w.copyFiles [] (sshOf config d) (filesOf w d) with
      | some err =>
        { diags := FromErr ("copying files to remote: " ++ err)
          d := d, trace := [Event.copyFiles (sshOf config d) (filesOf w d)], log := [] }
      | none =>
        match w.ensureContainerHostReady [Event.copyFiles (sshOf config d) (filesOf w d)]
            (sshOf config d) with
        | some err =>
          { diags := FromErr ("container host ready-ness check failed: " ++ err)
            d := d
            trace := stageEvents w config d
            log := [] }
        | none =>
          runCommands w config d [] (sshOf config d) (commandsOf w d) ""
            (stageEvents w config d) [] := by
  obtain ⟨h1, h2, h3, r1, r2, r3⟩ := (valid_iff w config d).mp hv
  rw [create_eq, h1]
  simp only [h2, h3, ne_eq, not_true_eq_false, if_false, r1, r2, stageEvents]
  rw [if_neg r3]

/-- An input that reaches the command loop runs it after the two stage calls. -/
theorem create_of_ready (w : World) (config : Config) (d : ResourceData)
    (hr : Ready w config d) :
    resourceContainerHostExecCreate w config d =
      runCommands w config d [] (sshOf config d) (commandsOf w d) ""
        (stageEvents w config d) [] := by
  obtain ⟨hv, hcopy, hready⟩ := hr
  rw [create_of_valid w config d hv, hcopy, hready]

/-- An input that does not pass validation makes no call to the remote side, leaves the
resource data as it was and returns a diagnostic. -/
theorem create_of_not_valid (w : World) (config : Config) (d : ResourceData)
    (hv : ¬ Valid w config d) :
    (resourceContainerHostExecCreate w config d).trace = [] ∧
      (resourceContainerHostExecCreate w config d).d = d ∧
      (resourceContainerHostExecCreate w config d).diags ≠ [] := by
  rw [valid_iff] at hv
  rw [create_eq]
  cases hc : config.cartelClientErr with
  | some e => simp [FromErr]
  | none =>
    simp only []
    split_ifs with h1 h2 h3 h4 h5
    · exact ⟨rfl, rfl, h1⟩
    · exact ⟨rfl, rfl, h2⟩
    · simp [FromErr]
    · simp [FromErr]
    · simp [FromErr]
    · exfalso
      apply hv
      simp only [ne_eq, not_not] at h1 h2
      exact ⟨hc, h1, h2, h3, h4, h5⟩

/-- An input that reaches validation and violates a rule, but none with a lower number,
is answered with the error of that rule, before any call to the remote side. -/
theorem create_of_first_violation (w : World) (config : Config) (d : ResourceData) (r : Rule)
    (hc : Collected w config d) (hr : r.violated w d)
    (hlow : ∀ q : Rule, q.number < r.number → ¬ q.violated w d) :
    resourceContainerHostExecCreate w config d =
      { diags := FromErr r.message, d := d, trace := [], log := [] } := by
  obtain ⟨h1, h2, h3⟩ := hc
  rw [create_eq, h1]
  simp only [h2, h3, ne_eq, not_true_eq_false, if_false]
  cases r with
  | userRequired =>
    simp only [Rule.violated] at hr
    rw [if_pos hr]
    simp [Rule.message, commandsField]
  | authAvailable =>
    have q1 := hlow Rule.userRequired (by decide)
    simp only [Rule.violated] at hr q1
    rw [if_neg q1, if_pos]
    · simp [Rule.message]
    · refine ⟨hr.1, ?_⟩
      have := hr.2
      cases ha : d.agent <;> simp_all
  | keyAndAgent =>
    have q1 := hlow Rule.userRequired (by decide)
    have q2 := hlow Rule.authAvailable (by decide)
    simp only [Rule.violated] at hr q1 q2
    rw [if_neg q1, if_neg, if_pos hr]
    · simp [Rule.message]
    · rintro ⟨_, hk, _⟩
      exact hr.1 hk

/-- When the cartel client is not available its error is returned. -/
theorem create_of_client_err (w : World) (config : Config) (d : ResourceData) (e : String)
    (hc : config.cartelClientErr = some e) :
    resourceContainerHostExecCreate w config d =
      { diags := FromErr e, d := d, trace := [], log := [] } := by
  rw [create_eq, hc]

theorem hasError_fromErr (e : String) : HasError (FromErr e) :=
  ⟨{ severity := Severity.Error, summary := e }, by simp [FromErr], rfl⟩

/-- When the collections report no diagnostic, an input that does not pass validation is
answered with a diagnostic of error severity. -/
theorem create_invalid_hasError (w : World) (config : Config) (d : ResourceData)
    (hv : ¬ Valid w config d) (hf : (w.collectFilesToCreate d).2 = [])
    (hl : (w.collectList commandsField d).2 = []) :
    HasError (resourceContainerHostExecCreate w config d).diags := by
  cases hc : config.cartelClientErr with
  | some e =>
    rw [create_of_client_err w config d e hc]
    exact hasError_fromErr e
  | none =>
    have hcol : Collected w config d := ⟨hc, hf, hl⟩
    by_cases r1 : Rule.userRequired.violated w d
    · rw [create_of_first_violation w config d Rule.userRequired hcol r1
        (by intro q hq; cases q <;> simp [Rule.number] at hq)]
      exact hasError_fromErr _
    · by_cases r2 : Rule.authAvailable.violated w d
      · rw [create_of_first_violation w config d Rule.authAvailable hcol r2
          (by intro q hq; cases q <;> simp [Rule.number] at hq; exact r1)]
        exact hasError_fromErr _
      · by_cases r3 : Rule.keyAndAgent.violated w d
        · rw [create_of_first_violation w config d Rule.keyAndAgent hcol r3
            (by
              intro q hq
              cases q with
              | userRequired => exact r1
              | authAvailable => exact r2
              | keyAndAgent => simp [Rule.number] at hq)]
          exact hasError_fromErr _
        · exact absurd ⟨hcol, r1, r2, r3⟩ hv

/-! ## The shape of every run -/

/-- Every run either fails, with a diagnostic and the resource data as it was, or reaches
the command loop, sees every run succeed, returns no diagnostic and sets `result` and the
identifier. -/
theorem create_fails_or_succeeds (w : World) (config : Config) (d : ResourceData) :
    ((resourceContainerHostExecCreate w config d).diags ≠ [] ∧
        (resourceContainerHostExecCreate w config d).d = d) ∨
      ((resourceContainerHostExecCreate w config d).diags = [] ∧ Ready w config d ∧
        (∀ k, k < (commandsOf w d).length → (answer w config d k).err = none) ∧
        (resourceContainerHostExecCreate w config d).d =
          (d.SetResult (if commandsOf w d = [] then ""
            else (answer w config d ((commandsOf w d).length - 1)).stdout)).SetId
            (toString w.randInt)) := by
  by_cases hv : Valid w config d
  · cases hcopy : w.copyFiles [] (sshOf config d) (filesOf w d) with
    | some e =>
      left
      rw [create_of_valid w config d hv, hcopy]
      simp [FromErr]
    | none =>
      cases hready : w.ensureContainerHostReady [Event.copyFiles (sshOf config d) (filesOf w d)]
          (sshOf config d) with
      | some e =>
        left
        rw [create_of_valid w config d hv, hcopy, hready]
        simp [FromErr]
      | none =>
        have hr : Ready w config d := ⟨hv, hcopy, hready⟩
        rw [create_of_ready w config d hr]
        rcases ok_or_first_failure w (sshOf config d) (stageEvents w config d) (commandsOf w d)
          with hall | ⟨i, e, hi, hprev, hfail⟩
        · right
          have h := runCommands_ok w config d [] (sshOf config d) (commandsOf w d) ""
            (stageEvents w config d) [] hall
          exact ⟨h.1, hr, hall, h.2.1⟩
        · left
          have h := runCommands_fail w config d [] (sshOf config d) e (commandsOf w d) i ""
            (stageEvents w config d) [] hi hprev hfail
          refine ⟨?_, h.2.1⟩
          rw [h.1]
          simp [FromErr]
  · left
    have h := create_of_not_valid w config d hv
    exact ⟨h.2.2, h.2.1⟩

/-- The calls of every run are: none; or the copy alone; or the copy, the probe and the
runs of a leading part of the command list, in order. -/
theorem create_trace_cases (w : World) (config : Config) (d : ResourceData) :
    ((resourceContainerHostExecCreate w config d).trace = [] ∧ ¬ Valid w config d) ∨
      ((resourceContainerHostExecCreate w config d).trace =
          [Event.copyFiles (sshOf config d) (filesOf w d)] ∧ Valid w config d ∧
        w.copyFiles [] (sshOf config d) (filesOf w d) ≠ none) ∨
      ((resourceContainerHostExecCreate w config d).trace = stageEvents w config d ∧
        Valid w config d ∧ w.copyFiles [] (sshOf config d) (filesOf w d) = none ∧
        w.ensureContainerHostReady [Event.copyFiles (sshOf config d) (filesOf w d)]
          (sshOf config d) ≠ none) ∨
      (Ready w config d ∧ ∃ m, m ≤ (commandsOf w d).length ∧
        (resourceContainerHostExecCreate w config d).trace =
          stageEvents w config d ++ runEvents (sshOf config d) ((commandsOf w d).take m)) := by
  by_cases hv : Valid w config d
  · cases hcopy : w.copyFiles [] (sshOf config d) (filesOf w d) with
    | some e =>
      right; left
      rw [create_of_valid w config d hv, hcopy]
      exact ⟨rfl, hv, by simp⟩
    | none =>
      cases hready : w.ensureContainerHostReady [Event.copyFiles (sshOf config d) (filesOf w d)]
          (sshOf config d) with
      | some e =>
        right; right; left
        rw [create_of_valid w config d hv, hcopy, hready]
        exact ⟨rfl, hv, rfl, by simp⟩
      | none =>
        right; right; right
        have hr : Ready w config d := ⟨hv, hcopy, hready⟩
        rw [create_of_ready w config d hr]
        exact ⟨hr, runCommands_trace w config d [] (sshOf config d) (commandsOf w d) ""
          (stageEvents w config d) []⟩
  · left
    exact ⟨(create_of_not_valid w config d hv).1, hv⟩

theorem mem_runEvents (ssh : MakeConfig) (commands : List String) (ev : Event)
    (h : ev ∈ runEvents ssh commands) : ev.ssh = ssh ∧ ev.isRun = true := by
  simp only [runEvents, List.mem_map] at h
  obtain ⟨c, _, rfl⟩ := h
  exact ⟨rfl, rfl⟩

/-- Every call of a run carries the descriptor `sshOf`. -/
theorem create_trace_ssh (w : World) (config : Config) (d : ResourceData) (ev : Event)
    (h : ev ∈ (resourceContainerHostExecCreate w config d).trace) :
    ev.ssh = sshOf config d := by
  rcases create_trace_cases w config d with h1 | h2 | h3 | ⟨_, m, _, h4⟩
  · rw [h1.1] at h; simp at h
  · rw [h2.1] at h
    simp only [List.mem_singleton] at h
    rw [h]; rfl
  · rw [h3.1] at h
    simp only [stageEvents, List.mem_cons, List.mem_singleton, List.not_mem_nil, or_false] at h
    rcases h with h | h <;> rw [h] <;> rfl
  · rw [h4] at h
    rcases List.mem_append.mp h with h | h
    · simp only [stageEvents, List.mem_cons, List.mem_singleton, List.not_mem_nil, or_false] at h
      rcases h with h | h <;> rw [h] <;> rfl
    · exact (mem_runEvents _ _ ev h).1

/-! ## Texts -/

/-- Two texts that differ within their first `n` characters stay different whatever is
appended to them. -/
theorem append_ne_append (s t x y : String) (n : Nat) (hs : n ≤ s.data.length)
    (ht : n ≤ t.data.length) (hne : s.data.take n ≠ t.data.take n) : s ++ x ≠ t ++ y := by
  intro h
  have hd : (s ++ x).data = (t ++ y).data := by rw [h]
  rw [String.data_append, String.data_append] at hd
  have ht2 := congrArg (List.take n) hd
  rw [List.take_append_of_le_length hs, List.take_append_of_le_length ht] at ht2
  exact hne ht2

theorem fromErr_ne (a b : String) (h : a ≠ b) : FromErr a ≠ FromErr b := by
  intro hab
  apply h
  simpa [FromErr] using hab

theorem commandsRun_runEvents (ssh : MakeConfig) (commands : List String) :
    commandsRun (runEvents ssh commands) = commands := by
  induction commands with
  | nil => rfl
  | cons c rest ih =>
    simp only [runEvents, List.map_cons, commandsRun] at ih ⊢
    rw [ih]

theorem commandsRun_stage (w : World) (config : Config) (d : ResourceData) (l : List Event) :
    commandsRun (stageEvents w config d ++ l) = commandsRun l := by
  simp [stageEvents, commandsRun]

/-! ## The decimal rendering of a number -/

theorem toDigitsCore_append (fuel : Nat) :
    ∀ (n : Nat) (ds : List Char),
      Nat.toDigitsCore 10 fuel n ds = Nat.toDigitsCore 10 fuel n [] ++ ds := by
  induction fuel with
  | zero => intro n ds; simp [Nat.toDigitsCore]
  | succ f ih =>
    intro n ds
    simp only [Nat.toDigitsCore]
    by_cases h : n / 10 = 0
    · simp [h]
    · simp only [h, if_false]
      rw [ih (n / 10) (Nat.digitChar (n % 10) :: ds), ih (n / 10) [Nat.digitChar (n % 10)]]
      simp

theorem digitValue_digitChar (k : Nat) (hk : k < 10) : digitValue (Nat.digitChar k) = k := by
  interval_cases k <;> rfl

theorem isDigit_digitChar (k : Nat) (hk : k < 10) : (Nat.digitChar k).isDigit = true := by
  interval_cases k <;> rfl

theorem readBack_snoc (l : List Char) (c : Char) :
    readBack (l ++ [c]) = 10 * readBack l + digitValue c := by
  simp [readBack, List.foldl_append]

theorem readBack_toDigitsCore (fuel : Nat) :
    ∀ n : Nat, n < fuel → readBack (Nat.toDigitsCore 10 fuel n []) = n := by
  induction fuel with
  | zero => intro n hn; exact absurd hn (Nat.not_lt_zero n)
  | succ f ih =>
    intro n hn
    simp only [Nat.toDigitsCore]
    by_cases h : n / 10 = 0
    · simp only [h, if_true]
      have hlt : n < 10 := by omega
      have hr : readBack [Nat.digitChar (n % 10)] = digitValue (Nat.digitChar (n % 10)) := by
        simp [readBack]
      rw [hr, digitValue_digitChar _ (Nat.mod_lt _ (by decide))]
      exact Nat.mod_eq_of_lt hlt
    · simp only [h, if_false]
      rw [toDigitsCore_append, readBack_snoc, ih (n / 10) (by omega),
        digitValue_digitChar _ (Nat.mod_lt _ (by decide))]
      exact Nat.div_add_mod n 10

theorem toDigitsCore_digits (fuel : Nat) :
    ∀ (n : Nat) (c : Char), c ∈ Nat.toDigitsCore 10 fuel n [] → c.isDigit = true := by
  induction fuel with
  | zero => intro n c hc; simp [Nat.toDigitsCore] at hc
  | succ f ih =>
    intro n c hc
    simp only [Nat.toDigitsCore] at hc
    by_cases h : n / 10 = 0
    · simp only [h, if_true, List.mem_singleton] at hc
      rw [hc]
      exact isDigit_digitChar _ (Nat.mod_lt _ (by decide))
    · simp only [h, if_false] at hc
      rw [toDigitsCore_append] at hc
      rcases List.mem_append.mp hc with hc | hc
      · exact ih (n / 10) c hc
      · simp only [List.mem_singleton] at hc
        rw [hc]
        exact isDigit_digitChar _ (Nat.mod_lt _ (by decide))

theorem toDigitsCore_ne_nil (fuel n : Nat) : Nat.toDigitsCore 10 (fuel + 1) n [] ≠ [] := by
  simp only [Nat.toDigitsCore]
  by_cases h : n / 10 = 0
  · simp [h]
  · simp only [h, if_false]
    rw [toDigitsCore_append]
    simp

theorem toString_data (n : Nat) : (toString n).data = Nat.toDigits 10 n := rfl

/-- Reading back the decimal text of a number gives the number. -/
theorem readBack_toString (n : Nat) : readBack (toString n).data = n := by
  rw [toString_data]
  exact readBack_toDigitsCore (n + 1) n (Nat.lt_succ_self n)

/-- Different numbers have different decimal texts. -/
theorem toString_ne (m n : Nat) (h : m ≠ n) : toString m ≠ toString n := by
  intro heq
  apply h
  rw [← readBack_toString m, ← readBack_toString n, heq]

theorem toString_ne_empty (n : Nat) : toString n ≠ "" := by
  intro h
  have hd : (toString n).data = [] := by rw [h]
  rw [toString_data] at hd
  exact toDigitsCore_ne_nil n n hd

theorem toString_digits (n : Nat) (c : Char) (hc : c ∈ (toString n).data) :
    c.isDigit = true := by
  rw [toString_data] at hc
  exact toDigitsCore_digits (n + 1) n c hc

/-- A run that returns no diagnostic has set the identifier to the decimal text of the
number drawn. -/
theorem create_id_of_success (w : World) (config : Config) (d : ResourceData)
    (h : (resourceContainerHostExecCreate w config d).diags = []) :
    (resourceContainerHostExecCreate w config d).d.id = toString w.randInt := by
  rcases create_fails_or_succeeds w config d with ⟨h1, _⟩ | ⟨_, _, _, h4⟩
  · exact absurd h h1
  · rw [h4]
    rfl

/-! ## Every way a run can end -/

/-- An input that reaches validation ends in one of five ways: success, a violated rule, a
failing copy, a failing probe, or a first failing command. -/
theorem create_diags_cases (w : World) (config : Config) (d : ResourceData)
    (hcol : Collected w config d) :
    ((resourceContainerHostExecCreate w config d).diags = [] ∧ Ready w config d ∧
        ∀ k, k < (commandsOf w d).length → (answer w config d k).err = none) ∨
      (∃ r : Rule, r.violated w d ∧
        (resourceContainerHostExecCreate w config d).diags = FromErr r.message) ∨
      (∃ e, Valid w config d ∧ w.copyFiles [] (sshOf config d) (filesOf w d) = some e ∧
        (resourceContainerHostExecCreate w config d).diags =
          FromErr ("copying files to remote: " ++ e)) ∨
      (∃ e, Valid w config d ∧ w.copyFiles [] (sshOf config d) (filesOf w d) = none ∧
        w.ensureContainerHostReady [Event.copyFiles (sshOf config d) (filesOf w d)]
          (sshOf config d) = some e ∧
        (resourceContainerHostExecCreate w config d).diags =
          FromErr ("container host ready-ness check failed: " ++ e)) ∨
      (∃ i e, Ready w config d ∧ i < (commandsOf w d).length ∧
        (∀ k, k < i → (answer w config d k).err = none) ∧
        (answer w config d i).err = some e ∧
        (resourceContainerHostExecCreate w config d).diags =
          FromErr ("command [" ++ (commandsOf w d).getD i "" ++ "]: " ++ e)) := by
  by_cases hv : Valid w config d
  · cases hcopy : w.copyFiles [] (sshOf config d) (filesOf w d) with
    | some e =>
      right; right; left
      refine ⟨e, hv, rfl, ?_⟩
      rw [create_of_valid w config d hv, hcopy]
    | none =>
      cases hready : w.ensureContainerHostReady [Event.copyFiles (sshOf config d) (filesOf w d)]
          (sshOf config d) with
      | some e =>
        right; right; right; left
        refine ⟨e, hv, rfl, rfl, ?_⟩
        rw [create_of_valid w config d hv, hcopy, hready]
      | none =>
        have hr : Ready w config d := ⟨hv, hcopy, hready⟩
        rcases ok_or_first_failure w (sshOf config d) (stageEvents w config d) (commandsOf w d)
          with hall | ⟨i, e, hi, hprev, hfail⟩
        · left
          refine ⟨?_, hr, hall⟩
          rw [create_of_ready w config d hr]
          exact (runCommands_ok w config d [] (sshOf config d) (commandsOf w d) ""
            (stageEvents w config d) [] hall).1
        · right; right; right; right
          refine ⟨i, e, hr, hi, hprev, hfail, ?_⟩
          rw [create_of_ready w config d hr]
          have h := (runCommands_fail w config d [] (sshOf config d) e (commandsOf w d) i ""
            (stageEvents w config d) [] hi hprev hfail).1
          rw [h]
          simp
  · right; left
    by_cases r1 : Rule.userRequired.violated w d
    · exact ⟨Rule.userRequired, r1, by
        rw [create_of_first_violation w config d Rule.userRequired hcol r1
          (by intro q hq; cases q <;> simp [Rule.number] at hq)]⟩
    · by_cases r2 : Rule.authAvailable.violated w d
      · exact ⟨Rule.authAvailable, r2, by
          rw [create_of_first_violation w config d Rule.authAvailable hcol r2
            (by intro q hq; cases q <;> simp [Rule.number] at hq; exact r1)]⟩
      · by_cases r3 : Rule.keyAndAgent.violated w d
        · exact ⟨Rule.keyAndAgent, r3, by
            rw [create_of_first_violation w config d Rule.keyAndAgent hcol r3
              (by
                intro q hq
                cases q with
                | userRequired => exact r1
                | authAvailable => exact r2
                | keyAndAgent => simp [Rule.number] at hq)]⟩
        · exact absurd ⟨hcol, r1, r2, r3⟩ hv

theorem fromErr_single (e : String) :
    ∃ x, FromErr e = [x] ∧ x.severity = Severity.Error :=
  ⟨{ severity := Severity.Error, summary := e }, rfl, rfl⟩

/-! ## The producers read -/

theorem foldl_append_ids (list : List Producer) (acc : List String) :
    list.foldl (fun producers p => producers ++ [p.ID]) acc = acc ++ list.map (fun p => p.ID) := by
  induction list generalizing acc with
  | nil => simp
  | cons p rest ih => simp [ih]

/-- The read, case by case. -/
theorem producersRead_eq (d : ProducersData) (meta : NotificationConfig) :
    dataSourceNotificationProducersRead d meta =
      match meta.notificationClientErr with
      | some err => { diags := FromErr err, d := d, closed := false }
      | none =>
        match meta.notificationClient.GetProducers
            { ManagedOrganizationID := some d.managing_organization_id } with
        | (list, _, none) =>
          { diags := [], d := { d with id := "producers", producer_ids := list.map fun p => p.ID }
            closed := true }
        | (_, none, some err) => { diags := FromErr err, d := d, closed := true }
        | (_, some resp, some err) =>
          if resp.StatusCode = StatusForbidden then
            { diags := [], d := { d with id := "producers", producer_ids := [] }, closed := true }
          else { diags := FromErr err, d := d, closed := true } := by
  unfold dataSourceNotificationProducersRead
  cases hc : meta.notificationClientErr with
  | some e => simp [Id.run, NotificationConfig.NotificationClient, hc]
  | none =>
    rcases hl : meta.notificationClient.GetProducers
        { ManagedOrganizationID := some d.managing_organization_id } with ⟨list, resp, err⟩
    cases err with
    | none =>
      simp [Id.run, NotificationConfig.NotificationClient, hc, hl, foldl_append_ids]
    | some e =>
      cases resp with
      | none => simp [Id.run, NotificationConfig.NotificationClient, hc, hl]
      | some r =>
        by_cases h403 : r.StatusCode = StatusForbidden
        · simp [Id.run, NotificationConfig.NotificationClient, hc, hl, h403]
        · simp [Id.run, NotificationConfig.NotificationClient, hc, hl, h403]

/-! ## The helpers modelled from the spec -/

/-- The model of the copy stops at the first file whose delivery fails. -/
theorem copyFilesModel_fail (t : FileTransport) (ssh : MakeConfig) (f : provisionFile)
    (after : List provisionFile) (e : String) (hfail : t.WriteFile ssh f = some e) :
    ∀ before : List provisionFile,
      (∀ g, g ∈ before → t.WriteFile ssh g = none ∧ t.applyMetadata ssh g = none) →
      copyFilesModel t ssh (before ++ f :: after) =
        (some (f.Destination ++ ": " ++ e), before ++ [f]) := by
  intro before
  induction before with
  | nil =>
    intro _
    simp [copyFilesModel, hfail]
  | cons g rest ih =>
    intro hbefore
    have hg := hbefore g (List.mem_cons_self g rest)
    have hrest := ih (fun x hx => hbefore x (List.mem_cons_of_mem g hx))
    simp [copyFilesModel, hg.1, hg.2, hrest]

theorem collectFilesModel_severity (files : List FileBlock) :
    ∀ x, x ∈ (collectFilesModel files).2 → x.severity = Severity.Error := by
  induction files with
  | nil => intro x hx; simp [collectFilesModel] at hx
  | cons b rest ih =>
    intro x hx
    simp only [collectFilesModel] at hx
    split at hx
    · rcases List.mem_cons.mp hx with h | h
      · rw [h]; rfl
      · exact ih x h
    · exact ih x hx

theorem collectFilesModel_length (files : List FileBlock) :
    (collectFilesModel files).2.length = (files.filter FileBlock.malformed).length := by
  induction files with
  | nil => rfl
  | cons b rest ih =>
    simp only [collectFilesModel, List.filter_cons]
    split <;> simp [ih]

theorem collectFilesModel_ne_nil (files : List FileBlock) (b : FileBlock) (hb : b ∈ files)
    (hbad : b.malformed = true) : (collectFilesModel files).2 ≠ [] := by
  intro h
  have hlen := collectFilesModel_length files
  rw [h] at hlen
  have hmem : b ∈ files.filter FileBlock.malformed := List.mem_filter.mpr ⟨hb, hbad⟩
  have hnil : files.filter FileBlock.malformed = [] := List.length_eq_zero.mp hlen.symm
  rw [hnil] at hmem
  simp at hmem

/-! ## The agent flag -/

/-- The command loop reads nothing of the resource data: with another value of `agent` it
makes the same calls and ends the same way, the resource data keeping that value. -/
theorem runCommands_agent (w : World) (config : Config) (d : ResourceData) (a : Bool)
    (diags : Diagnostics) (ssh : MakeConfig) :
    ∀ (commands : List String) (stdout : String) (trace : List Event) (log : List String),
      runCommands w config { d with agent := a } diags ssh commands stdout trace log =
        { runCommands w config d diags ssh commands stdout trace log with
          d := { (runCommands w config d diags ssh commands stdout trace log).d with
            agent := a } } := by
  intro commands
  induction commands with
  | nil => intro stdout trace log; rfl
  | cons c rest ih =>
    intro stdout trace log
    simp only [runCommands]
    cases h : (w.Run trace ssh c (5 * Minute)).err with
    | some e => rfl
    | none => exact ih _ _ _

/-! ## The claims -/

/-- C1: when the files were copied, the host is ready, the runs of commands `0..i-1` report no
error and the run of command `i` reports the error `e`, the calls made are the copy, the
probe and the runs of commands `0..i` in order (so no command after `i` is run), the
operation returns the one error diagnostic `command [<text of command i>]: e`, and the
resource data is left as it was. -/
theorem C1_first_failing_command_stops (w : World) (config : Config) (d : ResourceData)
    (i : Nat) (e : String) (hready : Ready w config d) (hi : i < (commandsOf w d).length)
    (hprev : ∀ k, k < i → (answer w config d k).err = none)
    (hfail : (answer w config d i).err = some e) :
    (resourceContainerHostExecCreate w config d).trace =
        stageEvents w config d ++ runEvents (sshOf config d) ((commandsOf w d).take (i + 1)) ∧
      (resourceContainerHostExecCreate w config d).diags =
        FromErr ("command [" ++ (commandsOf w d)[i] ++ "]: " ++ e) ∧
      (resourceContainerHostExecCreate w config d).d = d := by
  rw [create_of_ready w config d hready]
  have h := runCommands_fail w config d [] (sshOf config d) e (commandsOf w d) i ""
    (stageEvents w config d) [] hi hprev hfail
  rw [List.getD_eq_getElem _ _ hi] at h
  exact ⟨h.2.2, by simpa using h.1, h.2.1⟩

/-- C1 on the scenario `["echo A", "false", "echo B"]`: the run fails naming `false`, and the
only runs are those of `echo A` and `false`. -/
theorem C1_witness :
    (resourceContainerHostExecCreate echoWorld {} failingRun).trace =
        [Event.copyFiles (sshOf {} failingRun) [],
          Event.ensureContainerHostReady (sshOf {} failingRun),
          Event.Run (sshOf {} failingRun) "echo A" (5 * Minute),
          Event.Run (sshOf {} failingRun) "false" (5 * Minute)] ∧
      (resourceContainerHostExecCreate echoWorld {} failingRun).diags =
        FromErr "command [false]: Process exited with status 1" ∧
      (resourceContainerHostExecCreate echoWorld {} failingRun).d = failingRun :=
  C1_first_failing_command_stops echoWorld {} failingRun 1 "Process exited with status 1"
    (by decide) (by decide) (by decide) (by decide)

/-- C2: when the input reaches the command loop, the command list is not empty and no run
reports an error, the operation returns no diagnostic and the recorded `result` is the
standard output of the run of the last command. -/
theorem C2_result_is_last_stdout (w : World) (config : Config) (d : ResourceData)
    (hready : Ready w config d) (hne : commandsOf w d ≠ [])
    (hall : ∀ k, k < (commandsOf w d).length → (answer w config d k).err = none) :
    (resourceContainerHostExecCreate w config d).d.result =
        (answer w config d ((commandsOf w d).length - 1)).stdout ∧
      (resourceContainerHostExecCreate w config d).diags = [] ∧
      (resourceContainerHostExecCreate w config d).trace =
        stageEvents w config d ++ runEvents (sshOf config d) (commandsOf w d) := by
  rw [create_of_ready w config d hready]
  have h := runCommands_ok w config d [] (sshOf config d) (commandsOf w d) ""
    (stageEvents w config d) [] hall
  refine ⟨?_, h.1, h.2.2⟩
  rw [h.2.1, if_neg hne]
  rfl

/-- C2 on the scenario `["echo A", "echo B"]`: only the output of `echo B` is recorded. -/
theorem C2_witness :
    (resourceContainerHostExecCreate echoWorld {} passingRun).d.result = "out of echo B" ∧
      (resourceContainerHostExecCreate echoWorld {} passingRun).diags = [] ∧
      (resourceContainerHostExecCreate echoWorld {} passingRun).trace =
        [Event.copyFiles (sshOf {} passingRun) [],
          Event.ensureContainerHostReady (sshOf {} passingRun),
          Event.Run (sshOf {} passingRun) "echo A" (5 * Minute),
          Event.Run (sshOf {} passingRun) "echo B" (5 * Minute)] :=
  C2_result_is_last_stdout echoWorld {} passingRun (by decide) (by decide) (by decide)

/-- C3: when the command list or the file list is non-empty and `user` is empty, the
operation makes no call to the remote side (no copy, no probe, no run), leaves the resource
data as it was and returns a diagnostic: the missing-user error when the input reaches
validation, and in any case one of error severity when the collections report none. -/
theorem C3_missing_user_fails_offline (w : World) (config : Config) (d : ResourceData)
    (hne : commandsOf w d ≠ [] ∨ filesOf w d ≠ []) (hu : d.user = "") :
    (resourceContainerHostExecCreate w config d).trace = [] ∧
      (resourceContainerHostExecCreate w config d).d = d ∧
      (resourceContainerHostExecCreate w config d).diags ≠ [] ∧
      (Collected w config d → (resourceContainerHostExecCreate w config d).diags =
        FromErr "user must be set when 'commands' is specified") ∧
      ((w.collectFilesToCreate d).2 = [] → (w.collectList commandsField d).2 = [] →
        HasError (resourceContainerHostExecCreate w config d).diags) := by
  have hr : Rule.userRequired.violated w d := ⟨hne, hu⟩
  have hv : ¬ Valid w config d := fun h => h.2.1 hr
  obtain ⟨h1, h2, h3⟩ := create_of_not_valid w config d hv
  refine ⟨h1, h2, h3, ?_, create_invalid_hasError w config d hv⟩
  intro hc
  rw [create_of_first_violation w config d Rule.userRequired hc hr
    (by intro q hq; cases q <;> simp [Rule.number] at hq)]
  simp [Rule.message, commandsField]

/-- C3 on a declared command with an empty user. -/
theorem C3_witness :
    (resourceContainerHostExecCreate echoWorld {} noUserRun).trace = [] ∧
      (resourceContainerHostExecCreate echoWorld {} noUserRun).d = noUserRun ∧
      (resourceContainerHostExecCreate echoWorld {} noUserRun).diags ≠ [] ∧
      (Collected echoWorld {} noUserRun →
        (resourceContainerHostExecCreate echoWorld {} noUserRun).diags =
          FromErr "user must be set when 'commands' is specified") ∧
      ((echoWorld.collectFilesToCreate noUserRun).2 = [] →
        (echoWorld.collectList commandsField noUserRun).2 = [] →
        HasError (resourceContainerHostExecCreate echoWorld {} noUserRun).diags) :=
  C3_missing_user_fails_offline echoWorld {} noUserRun (by decide) (by decide)

/-- C4: when `private_key` is non-empty and `agent` is true, with or without commands and
files, the operation makes no call to the remote side, leaves the resource data as it was
and returns a diagnostic: when the input reaches validation it is the key-and-agent error,
unless the user rule is violated as well, whose error then comes first; in any case it is
one of error severity when the collections report none. -/
theorem C4_key_and_agent_fails_offline (w : World) (config : Config) (d : ResourceData)
    (hk : d.private_key ≠ "") (ha : d.agent = true) :
    (resourceContainerHostExecCreate w config d).trace = [] ∧
      (resourceContainerHostExecCreate w config d).d = d ∧
      (resourceContainerHostExecCreate w config d).diags ≠ [] ∧
      (Collected w config d → ¬ Rule.userRequired.violated w d →
        (resourceContainerHostExecCreate w config d).diags =
          FromErr "'agent' is enabled so not expecting a private key to be set") ∧
      (Collected w config d → Rule.userRequired.violated w d →
        (resourceContainerHostExecCreate w config d).diags =
          FromErr "user must be set when 'commands' is specified") ∧
      ((w.collectFilesToCreate d).2 = [] → (w.collectList commandsField d).2 = [] →
        HasError (resourceContainerHostExecCreate w config d).diags) := by
  have hr : Rule.keyAndAgent.violated w d := ⟨hk, ha⟩
  have hv : ¬ Valid w config d := fun h => h.2.2.2 hr
  obtain ⟨h1, h2, h3⟩ := create_of_not_valid w config d hv
  refine ⟨h1, h2, h3, ?_, ?_, create_invalid_hasError w config d hv⟩
  · intro hc r1
    rw [create_of_first_violation w config d Rule.keyAndAgent hc hr
      (by
        intro q hq
        cases q with
        | userRequired => exact r1
        | authAvailable =>
          simp only [Rule.violated]
          rintro ⟨_, hno⟩
          exact hno (Or.inl hk)
        | keyAndAgent => simp [Rule.number] at hq)]
    simp [Rule.message]
  · intro hc r1
    rw [create_of_first_violation w config d Rule.userRequired hc r1
      (by intro q hq; cases q <;> simp [Rule.number] at hq)]
    simp [Rule.message, commandsField]

/-- C4 on an input with no commands and no files. -/
theorem C4_witness :
    (resourceContainerHostExecCreate echoWorld {} keyAndAgentRun).trace = [] ∧
      (resourceContainerHostExecCreate echoWorld {} keyAndAgentRun).d = keyAndAgentRun ∧
      (resourceContainerHostExecCreate echoWorld {} keyAndAgentRun).diags ≠ [] ∧
      (Collected echoWorld {} keyAndAgentRun →
        ¬ Rule.userRequired.violated echoWorld keyAndAgentRun →
        (resourceContainerHostExecCreate echoWorld {} keyAndAgentRun).diags =
          FromErr "'agent' is enabled so not expecting a private key to be set") ∧
      (Collected echoWorld {} keyAndAgentRun →
        Rule.userRequired.violated echoWorld keyAndAgentRun →
        (resourceContainerHostExecCreate echoWorld {} keyAndAgentRun).diags =
          FromErr "user must be set when 'commands' is specified") ∧
      ((echoWorld.collectFilesToCreate keyAndAgentRun).2 = [] →
        (echoWorld.collectList commandsField keyAndAgentRun).2 = [] →
        HasError (resourceContainerHostExecCreate echoWorld {} keyAndAgentRun).diags) :=
  C4_key_and_agent_fails_offline echoWorld {} keyAndAgentRun (by decide) (by decide)

/-- C5, as stated, fails: with a command declared and `user`, `private_key` and `agent` all
unset the operation reports the missing-user error, not the error that no authentication
method is available. -/
theorem C5_counterexample :
    (commandsOf echoWorld noUserNoAuthRun ≠ [] ∨ filesOf echoWorld noUserNoAuthRun ≠ []) ∧
      noUserNoAuthRun.private_key = "" ∧ noUserNoAuthRun.agent = false ∧
      (resourceContainerHostExecCreate echoWorld {} noUserNoAuthRun).diags =
        FromErr "user must be set when 'commands' is specified" ∧
      (resourceContainerHostExecCreate echoWorld {} noUserNoAuthRun).diags ≠
        FromErr "no SSH 'private_key' was set and 'agent' is 'false', authentication will fail after provisioning step" := by
  decide

/-- C5, amended: when the command list or the file list is non-empty, `private_key` is empty and
`agent` is false, the operation makes no call to the remote side, leaves the resource data
as it was and returns a diagnostic: when the input reaches validation with a user it is the
error that no authentication method is available (with an empty user the missing-user error
of the rule checked before it); in any case it is one of error severity when the
collections report none. -/
theorem C5_no_authentication_fails_offline (w : World) (config : Config) (d : ResourceData)
    (hne : commandsOf w d ≠ [] ∨ filesOf w d ≠ []) (hk : d.private_key = "")
    (ha : d.agent = false) :
    (resourceContainerHostExecCreate w config d).trace = [] ∧
      (resourceContainerHostExecCreate w config d).d = d ∧
      (resourceContainerHostExecCreate w config d).diags ≠ [] ∧
      (Collected w config d → d.user ≠ "" →
        (resourceContainerHostExecCreate w config d).diags =
          FromErr "no SSH 'private_key' was set and 'agent' is 'false', authentication will fail after provisioning step") ∧
      (Collected w config d → d.user = "" →
        (resourceContainerHostExecCreate w config d).diags =
          FromErr "user must be set when 'commands' is specified") ∧
      ((w.collectFilesToCreate d).2 = [] → (w.collectList commandsField d).2 = [] →
        HasError (resourceContainerHostExecCreate w config d).diags) := by
  have hr : Rule.authAvailable.violated w d := ⟨hne, by simp [hk, ha]⟩
  have hv : ¬ Valid w config d := fun h => h.2.2.1 hr
  obtain ⟨h1, h2, h3⟩ := create_of_not_valid w config d hv
  refine ⟨h1, h2, h3, ?_, ?_, create_invalid_hasError w config d hv⟩
  · intro hc hu
    rw [create_of_first_violation w config d Rule.authAvailable hc hr
      (by
        intro q hq
        cases q with
        | userRequired => exact fun h => hu h.2
        | authAvailable => simp [Rule.number] at hq
        | keyAndAgent => simp [Rule.number] at hq)]
    simp [Rule.message]
  · intro hc hu
    rw [create_of_first_violation w config d Rule.userRequired hc ⟨hne, hu⟩
      (by intro q hq; cases q <;> simp [Rule.number] at hq)]
    simp [Rule.message, commandsField]

/-- C5 on a declared command with a user but neither key nor agent. -/
theorem C5_witness :
    (resourceContainerHostExecCreate echoWorld {} noAuthRun).trace = [] ∧
      (resourceContainerHostExecCreate echoWorld {} noAuthRun).d = noAuthRun ∧
      (resourceContainerHostExecCreate echoWorld {} noAuthRun).diags ≠ [] ∧
      (Collected echoWorld {} noAuthRun → noAuthRun.user ≠ "" →
        (resourceContainerHostExecCreate echoWorld {} noAuthRun).diags =
          FromErr "no SSH 'private_key' was set and 'agent' is 'false', authentication will fail after provisioning step") ∧
      (Collected echoWorld {} noAuthRun → noAuthRun.user = "" →
        (resourceContainerHostExecCreate echoWorld {} noAuthRun).diags =
          FromErr "user must be set when 'commands' is specified") ∧
      ((echoWorld.collectFilesToCreate noAuthRun).2 = [] →
        (echoWorld.collectList commandsField noAuthRun).2 = [] →
        HasError (resourceContainerHostExecCreate echoWorld {} noAuthRun).diags) :=
  C5_no_authentication_fails_offline echoWorld {} noAuthRun (by decide) (by decide) (by decide)

/-- C6: the stages are hard gates. For an input that passes validation, an error of the copy
leaves the copy as the only call (no probe, no run) and is returned; an error of the probe
leaves the copy and the probe as the only calls (no run) and is returned. And in every run,
a command run among the calls means that the copy and the probe both reported no error and
that both calls come before every run. -/
theorem C6_stages_are_hard_gates (w : World) (config : Config) (d : ResourceData) :
    (∀ e, Valid w config d → w.copyFiles [] (sshOf config d) (filesOf w d) = some e →
        (resourceContainerHostExecCreate w config d).trace =
          [Event.copyFiles (sshOf config d) (filesOf w d)] ∧
        (resourceContainerHostExecCreate w config d).diags =
          FromErr ("copying files to remote: " ++ e) ∧
        (resourceContainerHostExecCreate w config d).d = d) ∧
      (∀ e, Valid w config d → w.copyFiles [] (sshOf config d) (filesOf w d) = none →
        w.ensureContainerHostReady [Event.copyFiles (sshOf config d) (filesOf w d)]
          (sshOf config d) = some e →
        (resourceContainerHostExecCreate w config d).trace =
          [Event.copyFiles (sshOf config d) (filesOf w d),
            Event.ensureContainerHostReady (sshOf config d)] ∧
        (resourceContainerHostExecCreate w config d).diags =
          FromErr ("container host ready-ness check failed: " ++ e) ∧
        (resourceContainerHostExecCreate w config d).d = d) ∧
      (∀ ev, ev ∈ (resourceContainerHostExecCreate w config d).trace → ev.isRun = true →
        w.copyFiles [] (sshOf config d) (filesOf w d) = none ∧
        w.ensureContainerHostReady [Event.copyFiles (sshOf config d) (filesOf w d)]
          (sshOf config d) = none ∧
        ∃ m, m ≤ (commandsOf w d).length ∧
          (resourceContainerHostExecCreate w config d).trace =
            [Event.copyFiles (sshOf config d) (filesOf w d),
              Event.ensureContainerHostReady (sshOf config d)] ++
              runEvents (sshOf config d) ((commandsOf w d).take m)) := by
  refine ⟨?_, ?_, ?_⟩
  · intro e hv hcopy
    rw [create_of_valid w config d hv, hcopy]
    exact ⟨rfl, rfl, rfl⟩
  · intro e hv hcopy hready
    rw [create_of_valid w config d hv, hcopy, hready]
    exact ⟨rfl, rfl, rfl⟩
  · intro ev hmem hrun
    rcases create_trace_cases w config d with h1 | h2 | h3 | ⟨hr, m, hm, h4⟩
    · rw [h1.1] at hmem; simp at hmem
    · rw [h2.1] at hmem
      simp only [List.mem_singleton] at hmem
      rw [hmem] at hrun
      simp [Event.isRun] at hrun
    · rw [h3.1] at hmem
      simp only [stageEvents, List.mem_cons, List.mem_singleton, List.not_mem_nil,
        or_false] at hmem
      rcases hmem with h | h <;> rw [h] at hrun <;> simp [Event.isRun] at hrun
    · exact ⟨hr.2.1, hr.2.2, m, hm, h4⟩

/-- C6 on three runs of a declared file and command: a failing copy, a failing probe, and a
run that reaches its command. -/
theorem C6_witness :
    (resourceContainerHostExecCreate copyFailWorld relayConfig relayRun).trace =
        [Event.copyFiles (sshOf relayConfig relayRun) (filesOf copyFailWorld relayRun)] ∧
      (resourceContainerHostExecCreate notReadyWorld relayConfig relayRun).trace =
        [Event.copyFiles (sshOf relayConfig relayRun) (filesOf notReadyWorld relayRun),
          Event.ensureContainerHostReady (sshOf relayConfig relayRun)] ∧
      (echoWorld.copyFiles [] (sshOf relayConfig relayRun) (filesOf echoWorld relayRun) = none ∧
        echoWorld.ensureContainerHostReady
          [Event.copyFiles (sshOf relayConfig relayRun) (filesOf echoWorld relayRun)]
          (sshOf relayConfig relayRun) = none ∧
        ∃ m, m ≤ (commandsOf echoWorld relayRun).length ∧
          (resourceContainerHostExecCreate echoWorld relayConfig relayRun).trace =
            [Event.copyFiles (sshOf relayConfig relayRun) (filesOf echoWorld relayRun),
              Event.ensureContainerHostReady (sshOf relayConfig relayRun)] ++
              runEvents (sshOf relayConfig relayRun)
                ((commandsOf echoWorld relayRun).take m)) :=
  ⟨((C6_stages_are_hard_gates copyFailWorld relayConfig relayRun).1
      "dial tcp: connection refused" (by decide) (by decide)).1,
    ((C6_stages_are_hard_gates notReadyWorld relayConfig relayRun).2.1
      "timed out" (by decide) (by decide) (by decide)).1,
    (C6_stages_are_hard_gates echoWorld relayConfig relayRun).2.2
      (Event.Run (sshOf relayConfig relayRun) "echo A" (5 * Minute)) (by decide) (by decide)⟩

/-- C7: the operation is atomic on the resource data. Whenever it returns a diagnostic the
resource data is left as it was, so neither `result` nor the identifier is set; when it
returns none, the input reached the command loop, every run reported no error, and only
`result` and the identifier were set; hence the resource data changes only on that path. -/
theorem C7_failure_leaves_state_unchanged (w : World) (config : Config) (d : ResourceData) :
    ((resourceContainerHostExecCreate w config d).diags ≠ [] →
        (resourceContainerHostExecCreate w config d).d = d) ∧
      ((resourceContainerHostExecCreate w config d).diags = [] →
        Ready w config d ∧
        (∀ k, k < (commandsOf w d).length → (answer w config d k).err = none) ∧
        (resourceContainerHostExecCreate w config d).d =
          (d.SetResult (resourceContainerHostExecCreate w config d).d.result).SetId
            (toString w.randInt)) ∧
      ((resourceContainerHostExecCreate w config d).d ≠ d →
        (resourceContainerHostExecCreate w config d).diags = [] ∧ Ready w config d ∧
        (∀ k, k < (commandsOf w d).length → (answer w config d k).err = none)) := by
  rcases create_fails_or_succeeds w config d with ⟨h1, h2⟩ | ⟨h1, h2, h3, h4⟩
  · exact ⟨fun _ => h2, fun h => absurd h h1, fun h => absurd h2 h⟩
  · refine ⟨fun h => absurd h1 h, fun _ => ⟨h2, h3, ?_⟩, fun _ => ⟨h1, h2, h3⟩⟩
    rw [h4]
    rfl

/-- C7 on a failing and on a passing run: the first leaves the resource data as it was, the
second sets `result` and the identifier and nothing else. -/
theorem C7_witness :
    (resourceContainerHostExecCreate echoWorld {} failingRun).d = failingRun ∧
      (resourceContainerHostExecCreate echoWorld {} passingRun).d =
        { passingRun with result := "out of echo B", id := "4037200794235010051" } :=
  ⟨(C7_failure_leaves_state_unchanged echoWorld {} failingRun).1 (by decide),
    ((C7_failure_leaves_state_unchanged echoWorld {} passingRun).2.1 (by decide)).2.2⟩

/-- C8, as stated, fails: with no file and no command declared the operation still fails,
and assigns no identifier, when the probe reports the host not ready, and it fails as well
when a key is set together with the agent. -/
theorem C8_counterexample :
    (filesOf notReadyWorld emptyRun = [] ∧ commandsOf notReadyWorld emptyRun = [] ∧
        (resourceContainerHostExecCreate notReadyWorld {} emptyRun).diags =
          FromErr "container host ready-ness check failed: timed out" ∧
        (resourceContainerHostExecCreate notReadyWorld {} emptyRun).d.id = emptyRun.id) ∧
      (filesOf echoWorld keyAndAgentRun = [] ∧ commandsOf echoWorld keyAndAgentRun = [] ∧
        (resourceContainerHostExecCreate echoWorld {} keyAndAgentRun).diags =
          FromErr "'agent' is enabled so not expecting a private key to be set" ∧
        (resourceContainerHostExecCreate echoWorld {} keyAndAgentRun).d.id =
          keyAndAgentRun.id) := by
  decide

/-- C8, amended: when the file list and the command list are empty, the input reaches
validation, a key and the agent are not both set, and the copy helper, called with the empty
file list, and the readiness probe report no error, the operation returns no diagnostic,
its only calls are that copy of no file and the probe (so no command is run), `result` is
set to the empty text and the identifier to the number drawn. -/
theorem C8_empty_run_succeeds (w : World) (config : Config) (d : ResourceData)
    (hfiles : filesOf w d = []) (hcommands : commandsOf w d = [])
    (hcol : Collected w config d) (hka : ¬ (d.private_key ≠ "" ∧ d.agent = true))
    (hcopy : w.copyFiles [] (sshOf config d) [] = none)
    (hready : w.ensureContainerHostReady [Event.copyFiles (sshOf config d) []]
      (sshOf config d) = none) :
    (resourceContainerHostExecCreate w config d).diags = [] ∧
      (resourceContainerHostExecCreate w config d).trace =
        [Event.copyFiles (sshOf config d) [], Event.ensureContainerHostReady (sshOf config d)] ∧
      (resourceContainerHostExecCreate w config d).d =
        (d.SetResult "").SetId (toString w.randInt) := by
  have hv : Valid w config d := by
    refine ⟨hcol, ?_, ?_, hka⟩
    · rintro ⟨hne, _⟩
      rcases hne with h | h
      · exact h hcommands
      · exact h hfiles
    · rintro ⟨hne, _⟩
      rcases hne with h | h
      · exact h hcommands
      · exact h hfiles
  have hr : Ready w config d := ⟨hv, by rw [hfiles]; exact hcopy, by rw [hfiles]; exact hready⟩
  rw [create_of_ready w config d hr, hcommands]
  simp [runCommands, stageEvents, hfiles]

/-- C8, amended, on an input that declares nothing. -/
theorem C8_witness :
    (resourceContainerHostExecCreate echoWorld {} emptyRun).diags = [] ∧
      (resourceContainerHostExecCreate echoWorld {} emptyRun).trace =
        [Event.copyFiles (sshOf {} emptyRun) [],
          Event.ensureContainerHostReady (sshOf {} emptyRun)] ∧
      (resourceContainerHostExecCreate echoWorld {} emptyRun).d =
        { emptyRun with result := "", id := "4037200794235010051" } :=
  C8_empty_run_succeeds echoWorld {} emptyRun (by decide) (by decide) (by decide) (by decide)
    (by decide) (by decide)

/-- C9: the rules are checked in the order of their numbers. For an input that reaches
validation, a violated rule with no violated rule of a lower number is the one whose error
is returned, before any call to the remote side; the three errors are different texts; and
with commands or files declared, `user` empty, a key set and the agent enabled, the error
returned is the missing-user error and not the key-and-agent error. -/
theorem C9_lowest_violated_rule_is_reported (w : World) (config : Config) (d : ResourceData)
    (hcol : Collected w config d) :
    (∀ r : Rule, r.violated w d → (∀ q : Rule, q.number < r.number → ¬ q.violated w d) →
        (resourceContainerHostExecCreate w config d).diags = FromErr r.message ∧
        (resourceContainerHostExecCreate w config d).trace = []) ∧
      (∀ r q : Rule, r.message = q.message → r = q) ∧
      ((commandsOf w d ≠ [] ∨ filesOf w d ≠ []) → d.user = "" → d.private_key ≠ "" →
        d.agent = true →
        (resourceContainerHostExecCreate w config d).diags =
          FromErr "user must be set when 'commands' is specified" ∧
        (resourceContainerHostExecCreate w config d).diags ≠
          FromErr "'agent' is enabled so not expecting a private key to be set") := by
  refine ⟨?_, ?_, ?_⟩
  · intro r hr hlow
    rw [create_of_first_violation w config d r hcol hr hlow]
    exact ⟨rfl, rfl⟩
  · intro r q
    cases r <;> cases q <;> decide
  · intro hne hu _ _
    rw [create_of_first_violation w config d Rule.userRequired hcol ⟨hne, hu⟩
      (by intro q hq; cases q <;> simp [Rule.number] at hq)]
    simp only []
    have hmsg : FromErr Rule.userRequired.message =
        FromErr "user must be set when 'commands' is specified" := by decide
    rw [hmsg]
    exact ⟨rfl, by decide⟩

/-- C9 on a declared command with an empty user, a key and the agent: rules 1 and 3 are
both violated and the error of rule 1 is returned. -/
theorem C9_witness :
    Rule.userRequired.violated echoWorld noUserRun ∧
      Rule.keyAndAgent.violated echoWorld noUserRun ∧
      (resourceContainerHostExecCreate echoWorld {} noUserRun).diags =
        FromErr "user must be set when 'commands' is specified" ∧
      (resourceContainerHostExecCreate echoWorld {} noUserRun).diags ≠
        FromErr "'agent' is enabled so not expecting a private key to be set" :=
  ⟨by decide, by decide,
    (C9_lowest_violated_rule_is_reported echoWorld {} noUserRun (by decide)).2.2
      (by decide) (by decide) (by decide) (by decide)⟩

/-- C10: in every call the operation makes, the relay host of the descriptor is the declared
`bastion_host` when that is non-empty, and otherwise the default of the cartel client,
whatever it is; and an input that passes validation does hand the descriptor on, its first
call being the copy of the files with that descriptor. -/
theorem C10_relay_host_declared_or_default (w : World) (config : Config) (d : ResourceData) :
    (∀ ev, ev ∈ (resourceContainerHostExecCreate w config d).trace → d.bastion_host ≠ "" →
        ev.ssh.Bastion.Server = d.bastion_host) ∧
      (∀ ev, ev ∈ (resourceContainerHostExecCreate w config d).trace → d.bastion_host = "" →
        ev.ssh.Bastion.Server = config.cartelClient.BastionHost) ∧
      (Valid w config d → ∃ ssh,
        (resourceContainerHostExecCreate w config d).trace.head? =
          some (Event.copyFiles ssh (filesOf w d)) ∧
        ssh.Bastion.Server =
          if d.bastion_host = "" then config.cartelClient.BastionHost else d.bastion_host) := by
  refine ⟨?_, ?_, ?_⟩
  · intro ev hmem hb
    rw [create_trace_ssh w config d ev hmem]
    simp [sshOf, hb]
  · intro ev hmem hb
    rw [create_trace_ssh w config d ev hmem]
    simp [sshOf, hb]
  · intro hv
    refine ⟨sshOf config d, ?_, rfl⟩
    rcases create_trace_cases w config d with h1 | h2 | h3 | ⟨_, m, _, h4⟩
    · exact absurd hv h1.2
    · rw [h2.1]; rfl
    · rw [h3.1]; rfl
    · rw [h4]; rfl

/-- C10 on two runs: a declared relay host is used as it is, and without one the default of
the cartel client is used. -/
theorem C10_witness :
    (∀ ev, ev ∈ (resourceContainerHostExecCreate echoWorld relayConfig relayRun).trace →
        ev.ssh.Bastion.Server = "gw.example.com") ∧
      (∀ ev, ev ∈ (resourceContainerHostExecCreate echoWorld relayConfig passingRun).trace →
        ev.ssh.Bastion.Server = "gw.default.example.com") ∧
      (resourceContainerHostExecCreate echoWorld relayConfig relayRun).trace ≠ [] ∧
      (resourceContainerHostExecCreate echoWorld relayConfig passingRun).trace ≠ [] :=
  ⟨fun ev h => (C10_relay_host_declared_or_default echoWorld relayConfig relayRun).1 ev h
      (by decide),
    fun ev h => (C10_relay_host_declared_or_default echoWorld relayConfig passingRun).2.1 ev h
      (by decide),
    by decide, by decide⟩

/-- C11: for an input that passes validation, every call carries a descriptor whose target
server is `host`, whose target user is `user`, whose relay hop has the same user and the
same key as the target hop, the key being `private_key` (so both keys are empty when it is
empty), and whose two ports are "22"; and the descriptor is handed on, the first call being
the copy of the files. -/
theorem C11_descriptor_fields (w : World) (config : Config) (d : ResourceData)
    (hv : Valid w config d) :
    (∀ ev, ev ∈ (resourceContainerHostExecCreate w config d).trace →
        ev.ssh.Server = d.host ∧ ev.ssh.User = d.user ∧ ev.ssh.Bastion.User = ev.ssh.User ∧
        ev.ssh.Bastion.Key = ev.ssh.Key ∧ ev.ssh.Key = d.private_key ∧
        (d.private_key = "" → ev.ssh.Key = "" ∧ ev.ssh.Bastion.Key = "") ∧
        ev.ssh.Port = "22" ∧ ev.ssh.Bastion.Port = "22") ∧
      ∃ ssh, (resourceContainerHostExecCreate w config d).trace.head? =
        some (Event.copyFiles ssh (filesOf w d)) := by
  constructor
  · intro ev hmem
    rw [create_trace_ssh w config d ev hmem]
    refine ⟨rfl, rfl, rfl, rfl, rfl, ?_, rfl, rfl⟩
    intro hk
    simp [sshOf, hk]
  · refine ⟨sshOf config d, ?_⟩
    rcases create_trace_cases w config d with h1 | h2 | h3 | ⟨_, m, _, h4⟩
    · exact absurd hv h1.2
    · rw [h2.1]; rfl
    · rw [h3.1]; rfl
    · rw [h4]; rfl

/-- C11 on a run with a key and on a run with the agent and no key. -/
theorem C11_witness :
    (∀ ev, ev ∈ (resourceContainerHostExecCreate echoWorld relayConfig relayRun).trace →
        ev.ssh.Server = "10.0.0.5" ∧ ev.ssh.User = "ubuntu" ∧
        ev.ssh.Bastion.User = ev.ssh.User ∧ ev.ssh.Bastion.Key = ev.ssh.Key ∧
        ev.ssh.Key = "KEY" ∧
        (relayRun.private_key = "" → ev.ssh.Key = "" ∧ ev.ssh.Bastion.Key = "") ∧
        ev.ssh.Port = "22" ∧ ev.ssh.Bastion.Port = "22") ∧
      (resourceContainerHostExecCreate echoWorld relayConfig relayRun).trace ≠ [] ∧
      (∀ ev, ev ∈ (resourceContainerHostExecCreate echoWorld relayConfig agentRun).trace →
        ev.ssh.Key = "" ∧ ev.ssh.Bastion.Key = "") ∧
      (resourceContainerHostExecCreate echoWorld relayConfig agentRun).trace ≠ [] :=
  ⟨(C11_descriptor_fields echoWorld relayConfig relayRun (by decide)).1, by decide,
    fun ev h => ((C11_descriptor_fields echoWorld relayConfig agentRun (by decide)).1 ev
      h).2.2.2.2.2.1 (by decide),
    by decide⟩

/-- C12, on the copy modelled from the spec: when the input passes validation, the files
before `f` in the collected list are delivered and get their metadata, and the delivery of
`f` fails with `e`, then the files whose transfer is attempted are those up to `f` and no
further one, the only call of the operation is the copy (no probe and no command run), the
resource data is left as it was, and the one diagnostic returned has a text that contains
the destination of `f`. -/
theorem C12_failing_transfer_names_destination (t : FileTransport) (w : World)
    (config : Config) (d : ResourceData) (before after : List provisionFile)
    (f : provisionFile) (e : String)
    (hv : Valid (withCopyFilesModel t w) config d)
    (hfiles : filesOf (withCopyFilesModel t w) d = before ++ f :: after)
    (hbefore : ∀ g, g ∈ before →
      t.WriteFile (sshOf config d) g = none ∧ t.applyMetadata (sshOf config d) g = none)
    (hfail : t.WriteFile (sshOf config d) f = some e) :
    (copyFilesModel t (sshOf config d) (filesOf (withCopyFilesModel t w) d)).2 =
        before ++ [f] ∧
      (resourceContainerHostExecCreate (withCopyFilesModel t w) config d).trace =
        [Event.copyFiles (sshOf config d) (filesOf (withCopyFilesModel t w) d)] ∧
      commandsRun (resourceContainerHostExecCreate (withCopyFilesModel t w) config d).trace
        = [] ∧
      (resourceContainerHostExecCreate (withCopyFilesModel t w) config d).d = d ∧
      (resourceContainerHostExecCreate (withCopyFilesModel t w) config d).diags =
        FromErr ("copying files to remote: " ++ f.Destination ++ ": " ++ e) ∧
      ∃ x, (resourceContainerHostExecCreate (withCopyFilesModel t w) config d).diags = [x] ∧
        x.severity = Severity.Error ∧ Contains x.summary f.Destination := by
  have hmodel := copyFilesModel_fail t (sshOf config d) f after e hfail before hbefore
  have hcopy : (withCopyFilesModel t w).copyFiles [] (sshOf config d)
      (filesOf (withCopyFilesModel t w) d) = some (f.Destination ++ ": " ++ e) := by
    show (copyFilesModel t (sshOf config d) (filesOf (withCopyFilesModel t w) d)).1 = _
    rw [hfiles, hmodel]
  rw [create_of_valid (withCopyFilesModel t w) config d hv, hcopy]
  refine ⟨by rw [hfiles, hmodel], rfl, rfl, rfl, ?_, ?_⟩
  · simp [String.append_assoc]
  · exact ⟨_, rfl, rfl, "copying files to remote: ", ": " ++ e, by simp [String.append_assoc]⟩

/-- C12 on three declared files of which the second is refused: the third is not attempted
and the text names `/tmp/y`. -/
theorem C12_witness :
    (copyFilesModel refusingTransport (sshOf {} threeFilesRun)
        (filesOf (withCopyFilesModel refusingTransport echoWorld) threeFilesRun)).2 =
        [{ Content := "a", Destination := "/tmp/x" }] ++
          [{ Content := "b", Destination := "/tmp/y" }] ∧
      (resourceContainerHostExecCreate (withCopyFilesModel refusingTransport echoWorld) {}
        threeFilesRun).trace =
        [Event.copyFiles (sshOf {} threeFilesRun)
          (filesOf (withCopyFilesModel refusingTransport echoWorld) threeFilesRun)] ∧
      commandsRun (resourceContainerHostExecCreate
        (withCopyFilesModel refusingTransport echoWorld) {} threeFilesRun).trace = [] ∧
      (resourceContainerHostExecCreate (withCopyFilesModel refusingTransport echoWorld) {}
        threeFilesRun).d = threeFilesRun ∧
      (resourceContainerHostExecCreate (withCopyFilesModel refusingTransport echoWorld) {}
        threeFilesRun).diags =
        FromErr ("copying files to remote: " ++ "/tmp/y" ++ ": " ++ "permission denied") ∧
      ∃ x, (resourceContainerHostExecCreate (withCopyFilesModel refusingTransport echoWorld) {}
          threeFilesRun).diags = [x] ∧
        x.severity = Severity.Error ∧ Contains x.summary "/tmp/y" :=
  C12_failing_transfer_names_destination refusingTransport echoWorld {} threeFilesRun
    [{ Content := "a", Destination := "/tmp/x" }] [{ Content := "c", Destination := "/tmp/z" }]
    { Content := "b", Destination := "/tmp/y" } "permission denied"
    (by decide) (by decide) (by decide) (by decide)

/-- C13: the three kinds of failure are reported with different texts. A failing copy is
reported with a text that starts with "copying files to remote: ", a failing probe with one
that starts with "container host ready-ness check failed: ", a failing command with one
that starts with "command [", and the diagnostics of three such runs are pairwise
different, whatever the underlying errors and the command text are. -/
theorem C13_failure_kinds_are_distinct (w1 w2 w3 : World) (c1 c2 c3 : Config)
    (d1 d2 d3 : ResourceData) (e1 e2 e3 : String) (i : Nat)
    (hv1 : Valid w1 c1 d1)
    (hcopy1 : w1.copyFiles [] (sshOf c1 d1) (filesOf w1 d1) = some e1)
    (hv2 : Valid w2 c2 d2)
    (hcopy2 : w2.copyFiles [] (sshOf c2 d2) (filesOf w2 d2) = none)
    (hready2 : w2.ensureContainerHostReady [Event.copyFiles (sshOf c2 d2) (filesOf w2 d2)]
      (sshOf c2 d2) = some e2)
    (hr3 : Ready w3 c3 d3) (hi : i < (commandsOf w3 d3).length)
    (hprev : ∀ k, k < i → (answer w3 c3 d3 k).err = none)
    (hfail : (answer w3 c3 d3 i).err = some e3) :
    (∃ text, (resourceContainerHostExecCreate w1 c1 d1).diags = FromErr text ∧
        StartsWith text "copying files to remote: ") ∧
      (∃ text, (resourceContainerHostExecCreate w2 c2 d2).diags = FromErr text ∧
        StartsWith text "container host ready-ness check failed: ") ∧
      (∃ text, (resourceContainerHostExecCreate w3 c3 d3).diags = FromErr text ∧
        StartsWith text "command [") ∧
      (resourceContainerHostExecCreate w2 c2 d2).diags ≠
        (resourceContainerHostExecCreate w3 c3 d3).diags ∧
      (resourceContainerHostExecCreate w2 c2 d2).diags ≠
        (resourceContainerHostExecCreate w1 c1 d1).diags ∧
      (resourceContainerHostExecCreate w3 c3 d3).diags ≠
        (resourceContainerHostExecCreate w1 c1 d1).diags := by
  have h1 : (resourceContainerHostExecCreate w1 c1 d1).diags =
      FromErr ("copying files to remote: " ++ e1) := by
    rw [create_of_valid w1 c1 d1 hv1, hcopy1]
  have h2 : (resourceContainerHostExecCreate w2 c2 d2).diags =
      FromErr ("container host ready-ness check failed: " ++ e2) := by
    rw [create_of_valid w2 c2 d2 hv2, hcopy2, hready2]
  have h3 : (resourceContainerHostExecCreate w3 c3 d3).diags =
      FromErr ("command [" ++ ((commandsOf w3 d3).getD i "" ++ "]: " ++ e3)) := by
    rw [create_of_ready w3 c3 d3 hr3]
    have h := (runCommands_fail w3 c3 d3 [] (sshOf c3 d3) e3 (commandsOf w3 d3) i ""
      (stageEvents w3 c3 d3) [] hi hprev hfail).1
    rw [h]
    simp [String.append_assoc]
  rw [h1, h2, h3]
  refine ⟨⟨_, rfl, e1, rfl⟩, ⟨_, rfl, e2, rfl⟩, ⟨_, rfl, _, rfl⟩, ?_, ?_, ?_⟩
  · exact fromErr_ne _ _ (append_ne_append _ _ _ _ 3 (by decide) (by decide) (by decide))
  · exact fromErr_ne _ _ (append_ne_append _ _ _ _ 3 (by decide) (by decide) (by decide))
  · exact fromErr_ne _ _ (append_ne_append _ _ _ _ 3 (by decide) (by decide) (by decide))

/-- C13 on a failing copy, a failing probe and a failing command. -/
theorem C13_witness :
    (resourceContainerHostExecCreate notReadyWorld relayConfig relayRun).diags ≠
        (resourceContainerHostExecCreate echoWorld {} failingRun).diags ∧
      (resourceContainerHostExecCreate notReadyWorld relayConfig relayRun).diags ≠
        (resourceContainerHostExecCreate copyFailWorld relayConfig relayRun).diags ∧
      (resourceContainerHostExecCreate echoWorld {} failingRun).diags ≠
        (resourceContainerHostExecCreate copyFailWorld relayConfig relayRun).diags :=
  (C13_failure_kinds_are_distinct copyFailWorld notReadyWorld echoWorld relayConfig relayConfig
    {} relayRun relayRun failingRun "dial tcp: connection refused" "timed out"
    "Process exited with status 1" 1 (by decide) (by decide) (by decide) (by decide) (by decide)
    (by decide) (by decide) (by decide) (by decide)).2.2.2

/-- C14: in every run the commands run are a leading part of the declared list, in the
order of the list, each run once; every run is given the timeout of five minutes, which is
300000000000 nanoseconds; and when the loop is reached and no run reports an error the
commands run are the whole list. -/
theorem C14_commands_run_in_order (w : World) (config : Config) (d : ResourceData) :
    (∃ m, m ≤ (commandsOf w d).length ∧
        commandsRun (resourceContainerHostExecCreate w config d).trace =
          (commandsOf w d).take m ∧
        (resourceContainerHostExecCreate w config d).trace.filter Event.isRun =
          runEvents (sshOf config d) ((commandsOf w d).take m)) ∧
      (∀ ssh command timeout,
        Event.Run ssh command timeout ∈ (resourceContainerHostExecCreate w config d).trace →
        timeout = 5 * Minute) ∧
      5 * Minute = 300000000000 ∧
      (Ready w config d →
        (∀ k, k < (commandsOf w d).length → (answer w config d k).err = none) →
        commandsRun (resourceContainerHostExecCreate w config d).trace = commandsOf w d) := by
  have hfilter : ∀ l : List String,
      (stageEvents w config d ++ runEvents (sshOf config d) l).filter Event.isRun =
        runEvents (sshOf config d) l := by
    intro l
    simp only [stageEvents, List.cons_append, List.nil_append, List.filter_cons, Event.isRun,
      Bool.false_eq_true, if_false]
    rw [List.filter_eq_self]
    intro ev hev
    exact (mem_runEvents _ _ ev hev).2
  refine ⟨?_, ?_, by decide, ?_⟩
  · rcases create_trace_cases w config d with h1 | h2 | h3 | ⟨_, m, hm, h4⟩
    · exact ⟨0, Nat.zero_le _, by rw [h1.1]; rfl, by rw [h1.1]; rfl⟩
    · exact ⟨0, Nat.zero_le _, by rw [h2.1]; rfl, by rw [h2.1]; rfl⟩
    · exact ⟨0, Nat.zero_le _, by rw [h3.1]; rfl, by rw [h3.1]; rfl⟩
    · refine ⟨m, hm, ?_, ?_⟩
      · rw [h4, commandsRun_stage, commandsRun_runEvents]
      · rw [h4, hfilter]
  · intro ssh command timeout hmem
    rcases create_trace_cases w config d with h1 | h2 | h3 | ⟨_, m, _, h4⟩
    · rw [h1.1] at hmem; simp at hmem
    · rw [h2.1] at hmem; simp at hmem
    · rw [h3.1] at hmem; simp [stageEvents] at hmem
    · rw [h4] at hmem
      simp only [stageEvents, runEvents, List.cons_append, List.nil_append, List.mem_cons,
        reduceCtorEq, false_or, List.mem_map, Event.Run.injEq] at hmem
      obtain ⟨_, _, _, _, ht⟩ := hmem
      exact ht.symm
  · intro hr hall
    rw [create_of_ready w config d hr,
      (runCommands_ok w config d [] (sshOf config d) (commandsOf w d) ""
        (stageEvents w config d) [] hall).2.2,
      commandsRun_stage, commandsRun_runEvents]

/-- C14 on the two scenarios of the spec: the failing run runs the first two commands, the
passing run runs both of its commands. -/
theorem C14_witness :
    commandsRun (resourceContainerHostExecCreate echoWorld {} failingRun).trace =
        ["echo A", "false"] ∧
      commandsRun (resourceContainerHostExecCreate echoWorld {} passingRun).trace =
        commandsOf echoWorld passingRun :=
  ⟨by decide,
    (C14_commands_run_in_order echoWorld {} passingRun).2.2.2 (by decide) (by decide)⟩

/-- C15, on the collection modelled from the spec: when the declared file list holds a
descriptor in which neither or both of `content` and `source` are set, the operation makes
no call to the remote side (no transfer, no probe, no command run), leaves the resource data
as it was and returns a diagnostic of error severity; with the cartel client available the
diagnostics are those of the collection, one for each malformed descriptor of the whole
list. -/
theorem C15_malformed_file_fails_before_transfer (w : World) (config : Config)
    (d : ResourceData) (b : FileBlock) (hb : b ∈ d.file)
    (hbad : (b.content = "" ∧ b.source = "") ∨ (b.content ≠ "" ∧ b.source ≠ "")) :
    (resourceContainerHostExecCreate (withCollectFilesModel w) config d).trace = [] ∧
      (resourceContainerHostExecCreate (withCollectFilesModel w) config d).d = d ∧
      HasError (resourceContainerHostExecCreate (withCollectFilesModel w) config d).diags ∧
      (config.cartelClientErr = none →
        (resourceContainerHostExecCreate (withCollectFilesModel w) config d).diags =
          (collectFilesModel d.file).2 ∧
        (resourceContainerHostExecCreate (withCollectFilesModel w) config d).diags.length =
          (d.file.filter FileBlock.malformed).length) := by
  have hmal : b.malformed = true := by
    rcases hbad with ⟨h1, h2⟩ | ⟨h1, h2⟩ <;> simp [FileBlock.malformed, h1, h2]
  have hne : ((withCollectFilesModel w).collectFilesToCreate d).2 ≠ [] :=
    collectFilesModel_ne_nil d.file b hb hmal
  have hv : ¬ Valid (withCollectFilesModel w) config d := fun h => hne h.1.2.1
  obtain ⟨h1, h2, _⟩ := create_of_not_valid (withCollectFilesModel w) config d hv
  have hdiags : config.cartelClientErr = none →
      (resourceContainerHostExecCreate (withCollectFilesModel w) config d).diags =
        (collectFilesModel d.file).2 := by
    intro hc
    rw [create_eq, hc]
    simp only []
    rw [if_pos hne]
    rfl
  refine ⟨h1, h2, ?_, fun hc => ⟨hdiags hc, ?_⟩⟩
  · cases hc : config.cartelClientErr with
    | some e =>
      rw [create_of_client_err (withCollectFilesModel w) config d e hc]
      exact hasError_fromErr e
    | none =>
      rw [hdiags hc]
      cases hl : (collectFilesModel d.file).2 with
      | nil => exact absurd hl (collectFilesModel_ne_nil d.file b hb hmal)
      | cons x rest =>
        refine ⟨x, List.mem_cons_self x rest, ?_⟩
        apply collectFilesModel_severity d.file
        rw [hl]
        exact List.mem_cons_self x rest
  · rw [hdiags hc]
    exact collectFilesModel_length d.file

/-- C15 on three declared files of which one sets neither and one sets both: no call is
made and two diagnostics are returned. -/
theorem C15_witness :
    (resourceContainerHostExecCreate (withCollectFilesModel echoWorld) {}
        malformedFilesRun).trace = [] ∧
      (resourceContainerHostExecCreate (withCollectFilesModel echoWorld) {}
        malformedFilesRun).d = malformedFilesRun ∧
      (resourceContainerHostExecCreate (withCollectFilesModel echoWorld) {}
        malformedFilesRun).diags.length = 2 :=
  ⟨(C15_malformed_file_fails_before_transfer echoWorld {} malformedFilesRun
      { destination := "/tmp/y" } (by decide) (Or.inl ⟨rfl, rfl⟩)).1,
    (C15_malformed_file_fails_before_transfer echoWorld {} malformedFilesRun
      { destination := "/tmp/y" } (by decide) (Or.inl ⟨rfl, rfl⟩)).2.1,
    by decide⟩

/-- C16: the probe runs also without commands. For an input that passes validation with a
non-empty file list and an empty command list, and whose copy reports no error, the calls
are the copy and one probe, and when the probe reports an error the operation returns it
and leaves the resource data as it was. -/
theorem C16_probe_runs_without_commands (w : World) (config : Config) (d : ResourceData)
    (hv : Valid w config d) (_hfiles : filesOf w d ≠ []) (hcommands : commandsOf w d = [])
    (hcopy : w.copyFiles [] (sshOf config d) (filesOf w d) = none) :
    (resourceContainerHostExecCreate w config d).trace =
        [Event.copyFiles (sshOf config d) (filesOf w d),
          Event.ensureContainerHostReady (sshOf config d)] ∧
      ((resourceContainerHostExecCreate w config d).trace.filter Event.isProbe).length = 1 ∧
      (∀ e, w.ensureContainerHostReady [Event.copyFiles (sshOf config d) (filesOf w d)]
          (sshOf config d) = some e →
        (resourceContainerHostExecCreate w config d).diags =
          FromErr ("container host ready-ness check failed: " ++ e) ∧
        (resourceContainerHostExecCreate w config d).d = d) := by
  have htrace : (resourceContainerHostExecCreate w config d).trace =
      [Event.copyFiles (sshOf config d) (filesOf w d),
        Event.ensureContainerHostReady (sshOf config d)] := by
    rw [create_of_valid w config d hv, hcopy]
    cases hready : w.ensureContainerHostReady [Event.copyFiles (sshOf config d) (filesOf w d)]
        (sshOf config d) with
    | some e => rfl
    | none =>
      simp only [hcommands, runCommands]
      rfl
  refine ⟨htrace, ?_, ?_⟩
  · rw [htrace]
    rfl
  · intro e hready
    rw [create_of_valid w config d hv, hcopy, hready]
    exact ⟨rfl, rfl⟩

/-- C16 on a files-only input: once with a host that never becomes ready, once with one that
does. -/
theorem C16_witness :
    ((resourceContainerHostExecCreate notReadyWorld {} filesOnlyRun).trace.filter
        Event.isProbe).length = 1 ∧
      (resourceContainerHostExecCreate notReadyWorld {} filesOnlyRun).diags =
        FromErr "container host ready-ness check failed: timed out" ∧
      ((resourceContainerHostExecCreate echoWorld {} filesOnlyRun).trace.filter
        Event.isProbe).length = 1 :=
  ⟨(C16_probe_runs_without_commands notReadyWorld {} filesOnlyRun (by decide) (by decide)
      (by decide) (by decide)).2.1,
    ((C16_probe_runs_without_commands notReadyWorld {} filesOnlyRun (by decide) (by decide)
      (by decide) (by decide)).2.2 "timed out" (by decide)).1,
    (C16_probe_runs_without_commands echoWorld {} filesOnlyRun (by decide) (by decide)
      (by decide) (by decide)).2.1⟩

/-- C17: the read returns no error and leaves the resource data, identifier included, as it
was; the delete returns no error, makes no call to the remote side and changes nothing but
the identifier, which it sets to the empty text. -/
theorem C17_read_and_delete_do_nothing (d : ResourceData) (m : Config) :
    (resourceContainerHostExecRead d m).err = none ∧
      (resourceContainerHostExecRead d m).d = d ∧
      (resourceContainerHostExecRead d m).trace = [] ∧
      (resourceContainerHostExecDelete d m).err = none ∧
      (resourceContainerHostExecDelete d m).trace = [] ∧
      (resourceContainerHostExecDelete d m).d = { d with id := "" } ∧
      (resourceContainerHostExecDelete d m).d.id = "" ∧
      (resourceContainerHostExecDelete d m).d.result = d.result ∧
      (resourceContainerHostExecDelete d m).d.triggers = d.triggers ∧
      (resourceContainerHostExecDelete d m).d.host = d.host ∧
      (resourceContainerHostExecDelete d m).d.bastion_host = d.bastion_host ∧
      (resourceContainerHostExecDelete d m).d.user = d.user ∧
      (resourceContainerHostExecDelete d m).d.private_key = d.private_key ∧
      (resourceContainerHostExecDelete d m).d.agent = d.agent ∧
      (resourceContainerHostExecDelete d m).d.commands = d.commands ∧
      (resourceContainerHostExecDelete d m).d.file = d.file :=
  ⟨rfl, rfl, rfl, rfl, rfl, rfl, rfl, rfl, rfl, rfl, rfl, rfl, rfl, rfl, rfl, rfl⟩

/-- C17 on a resource that a create has set up. -/
theorem C17_witness :
    (resourceContainerHostExecRead createdRun {}).d = createdRun ∧
      (resourceContainerHostExecDelete createdRun {}).d =
        { passingRun with result := "out of echo B", id := "" } :=
  ⟨(C17_read_and_delete_do_nothing createdRun {}).2.1,
    (C17_read_and_delete_do_nothing createdRun {}).2.2.2.2.2.1⟩

/-- C18: a run that succeeds sets the identifier to the decimal text of the number drawn
from the random source: a non-empty text of digits that reads back as that number. The
identifier depends on the draw alone: two successful runs, whatever their inputs and
worlds, get the same identifier when their draws are the same and different identifiers
when their draws differ. -/
theorem C18_identifier_is_the_draw (w1 w2 : World) (c1 c2 : Config) (d1 d2 : ResourceData)
    (h1 : (resourceContainerHostExecCreate w1 c1 d1).diags = [])
    (h2 : (resourceContainerHostExecCreate w2 c2 d2).diags = []) :
    (resourceContainerHostExecCreate w1 c1 d1).d.id = toString w1.randInt ∧
      (resourceContainerHostExecCreate w1 c1 d1).d.id ≠ "" ∧
      (∀ c, c ∈ (resourceContainerHostExecCreate w1 c1 d1).d.id.data → c.isDigit = true) ∧
      readBack (resourceContainerHostExecCreate w1 c1 d1).d.id.data = w1.randInt ∧
      (w1.randInt = w2.randInt →
        (resourceContainerHostExecCreate w1 c1 d1).d.id =
          (resourceContainerHostExecCreate w2 c2 d2).d.id) ∧
      (w1.randInt ≠ w2.randInt →
        (resourceContainerHostExecCreate w1 c1 d1).d.id ≠
          (resourceContainerHostExecCreate w2 c2 d2).d.id) := by
  rw [create_id_of_success w1 c1 d1 h1, create_id_of_success w2 c2 d2 h2]
  refine ⟨rfl, toString_ne_empty _, toString_digits _, readBack_toString _, ?_, ?_⟩
  · intro h
    rw [h]
  · intro h
    exact toString_ne _ _ h

/-- C18 on two runs with different inputs and the same draw, and on two runs with the same
input and different draws. -/
theorem C18_witness :
    (resourceContainerHostExecCreate echoWorld {} passingRun).d.id = "4037200794235010051" ∧
      (resourceContainerHostExecCreate echoWorld {} passingRun).d.id =
        (resourceContainerHostExecCreate echoWorld relayConfig relayRun).d.id ∧
      (resourceContainerHostExecCreate echoWorld {} passingRun).d.id ≠
        (resourceContainerHostExecCreate otherDrawWorld {} passingRun).d.id :=
  ⟨(C18_identifier_is_the_draw echoWorld echoWorld {} relayConfig passingRun relayRun
      (by decide) (by decide)).1,
    (C18_identifier_is_the_draw echoWorld echoWorld {} relayConfig passingRun relayRun
      (by decide) (by decide)).2.2.2.2.1 rfl,
    (C18_identifier_is_the_draw echoWorld otherDrawWorld {} {} passingRun passingRun
      (by decide) (by decide)).2.2.2.2.2 (by decide)⟩

/-- C19: every failure that the operation itself detects is returned as one diagnostic of
error severity. A missing cartel client returns its error; an input that reaches validation
ends with no diagnostic, or with the error of a violated rule, of the copy, of the probe or
of the first failing command; so, whenever the collections report no diagnostic, the
diagnostics returned are empty or exactly one of error severity; and they are empty when
the loop is reached and no run reports an error. -/
theorem C19_one_error_diagnostic (w : World) (config : Config) (d : ResourceData) :
    (∀ e, config.cartelClientErr = some e →
        (resourceContainerHostExecCreate w config d).diags = FromErr e) ∧
      (Collected w config d →
        ((resourceContainerHostExecCreate w config d).diags = [] ∧ Ready w config d ∧
          ∀ k, k < (commandsOf w d).length → (answer w config d k).err = none) ∨
        (∃ r : Rule, r.violated w d ∧
          (resourceContainerHostExecCreate w config d).diags = FromErr r.message) ∨
        (∃ e, w.copyFiles [] (sshOf config d) (filesOf w d) = some e ∧
          (resourceContainerHostExecCreate w config d).diags =
            FromErr ("copying files to remote: " ++ e)) ∨
        (∃ e, w.ensureContainerHostReady [Event.copyFiles (sshOf config d) (filesOf w d)]
            (sshOf config d) = some e ∧
          (resourceContainerHostExecCreate w config d).diags =
            FromErr ("container host ready-ness check failed: " ++ e)) ∨
        (∃ i e, i < (commandsOf w d).length ∧ (answer w config d i).err = some e ∧
          (resourceContainerHostExecCreate w config d).diags =
            FromErr ("command [" ++ (commandsOf w d).getD i "" ++ "]: " ++ e))) ∧
      ((w.collectFilesToCreate d).2 = [] → (w.collectList commandsField d).2 = [] →
        (resourceContainerHostExecCreate w config d).diags = [] ∨
        ∃ x, (resourceContainerHostExecCreate w config d).diags = [x] ∧
          x.severity = Severity.Error) ∧
      (Ready w config d →
        (∀ k, k < (commandsOf w d).length → (answer w config d k).err = none) →
        (resourceContainerHostExecCreate w config d).diags = []) := by
  refine ⟨?_, ?_, ?_, ?_⟩
  · intro e he
    rw [create_of_client_err w config d e he]
  · intro hcol
    rcases create_diags_cases w config d hcol with h | ⟨r, hr, h⟩ | ⟨e, _, hc, h⟩ |
      ⟨e, _, _, hr, h⟩ | ⟨i, e, _, hi, _, hf, h⟩
    · exact Or.inl h
    · exact Or.inr (Or.inl ⟨r, hr, h⟩)
    · exact Or.inr (Or.inr (Or.inl ⟨e, hc, h⟩))
    · exact Or.inr (Or.inr (Or.inr (Or.inl ⟨e, hr, h⟩)))
    · exact Or.inr (Or.inr (Or.inr (Or.inr ⟨i, e, hi, hf, h⟩)))
  · intro hf hl
    cases hc : config.cartelClientErr with
    | some e =>
      right
      rw [create_of_client_err w config d e hc]
      exact fromErr_single e
    | none =>
      rcases create_diags_cases w config d ⟨hc, hf, hl⟩ with h | ⟨r, _, h⟩ | ⟨e, _, _, h⟩ |
        ⟨e, _, _, _, h⟩ | ⟨i, e, _, _, _, _, h⟩
      · exact Or.inl h.1
      · right; rw [h]; exact fromErr_single _
      · right; rw [h]; exact fromErr_single _
      · right; rw [h]; exact fromErr_single _
      · right; rw [h]; exact fromErr_single _
  · intro hr hall
    rw [create_of_ready w config d hr]
    exact (runCommands_ok w config d [] (sshOf config d) (commandsOf w d) ""
      (stageEvents w config d) [] hall).1

/-- C19 on one run for each way of failing, and on a passing run. -/
theorem C19_witness :
    (resourceContainerHostExecCreate echoWorld { cartelClientErr := some "no cartel client" }
        passingRun).diags = FromErr "no cartel client" ∧
      (resourceContainerHostExecCreate echoWorld {} noUserRun).diags.length = 1 ∧
      (resourceContainerHostExecCreate echoWorld {} noAuthRun).diags.length = 1 ∧
      (resourceContainerHostExecCreate echoWorld {} keyAndAgentRun).diags.length = 1 ∧
      (resourceContainerHostExecCreate copyFailWorld {} passingRun).diags.length = 1 ∧
      (resourceContainerHostExecCreate notReadyWorld {} passingRun).diags.length = 1 ∧
      (resourceContainerHostExecCreate echoWorld {} failingRun).diags.length = 1 ∧
      (resourceContainerHostExecCreate echoWorld {} passingRun).diags = [] :=
  ⟨(C19_one_error_diagnostic echoWorld { cartelClientErr := some "no cartel client" }
      passingRun).1 "no cartel client" rfl,
    by decide, by decide, by decide, by decide, by decide, by decide,
    (C19_one_error_diagnostic echoWorld {} passingRun).2.2.2 (by decide) (by decide)⟩

/-- C20: the producers read does not fail on a permission error. With the notification
client available: when the listing returns an error together with a response of status 403,
the read returns no diagnostic, sets the identifier to "producers" and sets `producer_ids`
to the empty list; when the listing returns an error with no response or with another
status, the read returns that error and leaves the data as it was; when the listing
returns no error, the read returns no diagnostic, sets the identifier and sets
`producer_ids` to the identifiers of the producers returned, in their order. -/
theorem C20_producers_read_tolerates_forbidden (d : ProducersData) (meta : NotificationConfig)
    (list : List Producer) (resp : Option Response) (err : Option String)
    (hclient : meta.notificationClientErr = none)
    (hlisting : meta.notificationClient.GetProducers
      { ManagedOrganizationID := some d.managing_organization_id } = (list, resp, err)) :
    (∀ e r, err = some e → resp = some r → r.StatusCode = 403 →
        (dataSourceNotificationProducersRead d meta).diags = [] ∧
        (dataSourceNotificationProducersRead d meta).d.id = "producers" ∧
        (dataSourceNotificationProducersRead d meta).d.producer_ids = []) ∧
      (∀ e, err = some e → (resp = none ∨ ∃ r, resp = some r ∧ r.StatusCode ≠ 403) →
        (dataSourceNotificationProducersRead d meta).diags = FromErr e ∧
        (dataSourceNotificationProducersRead d meta).d = d) ∧
      (err = none →
        (dataSourceNotificationProducersRead d meta).diags = [] ∧
        (dataSourceNotificationProducersRead d meta).d.id = "producers" ∧
        (dataSourceNotificationProducersRead d meta).d.producer_ids =
          list.map fun p => p.ID) := by
  rw [producersRead_eq, hclient, hlisting]
  refine ⟨?_, ?_, ?_⟩
  · intro e r he hr h403
    subst he hr
    simp [h403, StatusForbidden]
  · intro e he hresp
    subst he
    rcases hresp with hnone | ⟨r, hr, hne⟩
    · subst hnone
      exact ⟨rfl, rfl⟩
    · subst hr
      simp [StatusForbidden, hne]
  · intro he
    subst he
    cases resp <;> exact ⟨rfl, rfl, rfl⟩

/-- C20 on a forbidden listing, on a listing that fails with status 500, on one that fails
with no response, and on a listing of two producers. -/
theorem C20_witness :
    (dataSourceNotificationProducersRead producersData
        (listingConfig [{ ID := "p9" }] (some { StatusCode := 403 }) (some "forbidden"))).diags
        = [] ∧
      (dataSourceNotificationProducersRead producersData
        (listingConfig [{ ID := "p9" }] (some { StatusCode := 403 })
          (some "forbidden"))).d.producer_ids = [] ∧
      (dataSourceNotificationProducersRead producersData
        (listingConfig [] (some { StatusCode := 500 }) (some "server error"))).diags =
        FromErr "server error" ∧
      (dataSourceNotificationProducersRead producersData
        (listingConfig [] none (some "no route to host"))).d = producersData ∧
      (dataSourceNotificationProducersRead producersData
        (listingConfig [{ ID := "p1" }, { ID := "p2" }] (some {}) none)).d.producer_ids =
        ["p1", "p2"] :=
  ⟨((C20_producers_read_tolerates_forbidden producersData
      (listingConfig [{ ID := "p9" }] (some { StatusCode := 403 }) (some "forbidden"))
      [{ ID := "p9" }] (some { StatusCode := 403 }) (some "forbidden") rfl rfl).1
      "forbidden" { StatusCode := 403 } rfl rfl rfl).1,
    ((C20_producers_read_tolerates_forbidden producersData
      (listingConfig [{ ID := "p9" }] (some { StatusCode := 403 }) (some "forbidden"))
      [{ ID := "p9" }] (some { StatusCode := 403 }) (some "forbidden") rfl rfl).1
      "forbidden" { StatusCode := 403 } rfl rfl rfl).2.2,
    ((C20_producers_read_tolerates_forbidden producersData
      (listingConfig [] (some { StatusCode := 500 }) (some "server error"))
      [] (some { StatusCode := 500 }) (some "server error") rfl rfl).2.1
      "server error" rfl (Or.inr ⟨{ StatusCode := 500 }, rfl, by decide⟩)).1,
    ((C20_producers_read_tolerates_forbidden producersData
      (listingConfig [] none (some "no route to host"))
      [] none (some "no route to host") rfl rfl).2.1
      "no route to host" rfl (Or.inl rfl)).2,
    ((C20_producers_read_tolerates_forbidden producersData
      (listingConfig [{ ID := "p1" }, { ID := "p2" }] (some {}) none)
      [{ ID := "p1" }, { ID := "p2" }] (some {}) none rfl rfl).2.2 rfl).2.2⟩

/-- C21: the agent flag is read by validation alone. For two inputs that differ only in the
value of `agent`, with the same collected files and commands, and that both pass
validation, the descriptor is the same and does not hold the flag, every call is made with
that descriptor, and the calls, the diagnostics, the debug texts and the recorded `result`
are the same; the resource data of the two runs differ in `agent` alone. -/
theorem C21_agent_never_reaches_transport (w : World) (config : Config) (d : ResourceData)
    (a : Bool)
    (hfiles : w.collectFilesToCreate { d with agent := a } = w.collectFilesToCreate d)
    (hcommands : w.collectList commandsField { d with agent := a } =
      w.collectList commandsField d)
    (hv : Valid w config d) (hva : Valid w config { d with agent := a }) :
    sshOf config { d with agent := a } = sshOf config d ∧
      (∀ ev, ev ∈ (resourceContainerHostExecCreate w config { d with agent := a }).trace →
        ev.ssh = sshOf config d) ∧
      (resourceContainerHostExecCreate w config { d with agent := a }).trace =
        (resourceContainerHostExecCreate w config d).trace ∧
      (resourceContainerHostExecCreate w config { d with agent := a }).diags =
        (resourceContainerHostExecCreate w config d).diags ∧
      (resourceContainerHostExecCreate w config { d with agent := a }).log =
        (resourceContainerHostExecCreate w config d).log ∧
      (resourceContainerHostExecCreate w config { d with agent := a }).d.result =
        (resourceContainerHostExecCreate w config d).d.result ∧
      (resourceContainerHostExecCreate w config { d with agent := a }).d =
        { (resourceContainerHostExecCreate w config d).d with agent := a } := by
  have hssh : sshOf config { d with agent := a } = sshOf config d := rfl
  have hf : filesOf w { d with agent := a } = filesOf w d := by
    unfold filesOf
    rw [hfiles]
  have hc : commandsOf w { d with agent := a } = commandsOf w d := by
    unfold commandsOf
    rw [hcommands]
  have hst : stageEvents w config { d with agent := a } = stageEvents w config d := by
    unfold stageEvents
    rw [hssh, hf]
  have key : resourceContainerHostExecCreate w config { d with agent := a } =
      { resourceContainerHostExecCreate w config d with
        d := { (resourceContainerHostExecCreate w config d).d with agent := a } } := by
    rw [create_of_valid w config _ hva, create_of_valid w config d hv, hssh, hf, hc, hst]
    cases w.copyFiles [] (sshOf config d) (filesOf w d) with
    | some e => rfl
    | none =>
      cases w.ensureContainerHostReady [Event.copyFiles (sshOf config d) (filesOf w d)]
          (sshOf config d) with
      | some e => rfl
      | none => exact runCommands_agent w config d a [] (sshOf config d) _ _ _ _
  refine ⟨hssh, ?_, ?_, ?_, ?_, ?_, ?_⟩
  · intro ev hev
    rw [create_trace_ssh w config _ ev hev, hssh]
  · rw [key]
  · rw [key]
  · rw [key]
  · rw [key]
  · rw [key]

/-- C21 on an input that declares nothing, without and with the agent: both pass
validation and the two runs make the same calls with the same descriptor. -/
theorem C21_witness :
    sshOf {} agentOnlyRun = sshOf {} emptyRun ∧
      (∀ ev, ev ∈ (resourceContainerHostExecCreate echoWorld {} agentOnlyRun).trace →
        ev.ssh = sshOf {} emptyRun) ∧
      (resourceContainerHostExecCreate echoWorld {} agentOnlyRun).trace =
        (resourceContainerHostExecCreate echoWorld {} emptyRun).trace ∧
      (resourceContainerHostExecCreate echoWorld {} agentOnlyRun).diags =
        (resourceContainerHostExecCreate echoWorld {} emptyRun).diags ∧
      (resourceContainerHostExecCreate echoWorld {} agentOnlyRun).log =
        (resourceContainerHostExecCreate echoWorld {} emptyRun).log ∧
      (resourceContainerHostExecCreate echoWorld {} agentOnlyRun).d.result =
        (resourceContainerHostExecCreate echoWorld {} emptyRun).d.result ∧
      (resourceContainerHostExecCreate echoWorld {} agentOnlyRun).d =
        { (resourceContainerHostExecCreate echoWorld {} emptyRun).d with agent := true } :=
  C21_agent_never_reaches_transport echoWorld {} emptyRun true rfl rfl (by decide) (by decide)

/-- C22: when the input reaches the command loop and the command list is empty, the
operation returns no diagnostic, runs no command, its calls being the copy and the probe
alone, and sets `result` to the empty text whatever `result` held before; nothing else but
the identifier changes. -/
theorem C22_empty_command_list_clears_result (w : World) (config : Config)
    (d : ResourceData) (hready : Ready w config d) (hcommands : commandsOf w d = []) :
    (resourceContainerHostExecCreate w config d).d.result = "" ∧
      commandsRun (resourceContainerHostExecCreate w config d).trace = [] ∧
      (resourceContainerHostExecCreate w config d).trace =
        [Event.copyFiles (sshOf config d) (filesOf w d),
          Event.ensureContainerHostReady (sshOf config d)] ∧
      (resourceContainerHostExecCreate w config d).diags = [] ∧
      (resourceContainerHostExecCreate w config d).d =
        { d with result := "", id := toString w.randInt } := by
  rw [create_of_ready w config d hready, hcommands]
  exact ⟨rfl, rfl, rfl, rfl, rfl⟩

/-- C22 on a files-only input whose `result` held an earlier output. -/
theorem C22_witness :
    rerunFilesOnly.result = "old output" ∧
      (resourceContainerHostExecCreate echoWorld {} rerunFilesOnly).d.result = "" ∧
      commandsRun (resourceContainerHostExecCreate echoWorld {} rerunFilesOnly).trace = [] :=
  ⟨rfl,
    (C22_empty_command_list_clears_result echoWorld {} rerunFilesOnly (by decide)
      (by decide)).1,
    (C22_empty_command_list_clears_result echoWorld {} rerunFilesOnly (by decide)
      (by decide)).2.1⟩

end Hsdp
